import Mathlib

/-!
Verification development for the Data-Lineage-Mapper repository.

The repository is a Streamlit application. Its data flows through
JSON-like Python dictionaries, so the embedding models Python/JSON values
as the inductive `JValue`, and every relevant function of the repository
(`ai_logic.py`, `lineage_visualizer.py`, `additional_features.py`,
`main.py`) as a pure function over such values. External effects (the
Gemini network call, Streamlit widgets) are modelled by explicit outcome
parameters and result inductives.
-/

/-- Model of a Python/JSON value: `None`, booleans, integers, strings,
lists and (insertion-ordered) dictionaries with string keys. The
repository's structured lineage data never contains floats (the schema in
`main.py` declares only strings and integers), so floats are omitted. -/
inductive JValue where
  | null
  | bool (b : Bool)
  | int (n : Int)
  | str (s : String)
  | arr (xs : List JValue)
  | obj (fs : List (String × JValue))
deriving Repr

mutual

/-- Decidable equality for `JValue` (written by hand because `deriving`
does not handle the nested `List` occurrences). -/
def jdecEq : (a b : JValue) → Decidable (a = b)
  | .null, .null => .isTrue rfl
  | .bool a, .bool b =>
      if h : a = b then .isTrue (by rw [h]) else
        .isFalse (by intro e; injection e with h'; exact h h')
  | .int a, .int b =>
      if h : a = b then .isTrue (by rw [h]) else
        .isFalse (by intro e; injection e with h'; exact h h')
  | .str a, .str b =>
      if h : a = b then .isTrue (by rw [h]) else
        .isFalse (by intro e; injection e with h'; exact h h')
  | .arr xs, .arr ys =>
      match jdecEqArr xs ys with
      | .isTrue h => .isTrue (by rw [h])
      | .isFalse h => .isFalse (by intro e; injection e with h'; exact h h')
  | .obj fs, .obj gs =>
      match jdecEqObj fs gs with
      | .isTrue h => .isTrue (by rw [h])
      | .isFalse h => .isFalse (by intro e; injection e with h'; exact h h')
  | .null, .bool _ => .isFalse (fun h => nomatch h)
  | .null, .int _ => .isFalse (fun h => nomatch h)
  | .null, .str _ => .isFalse (fun h => nomatch h)
  | .null, .arr _ => .isFalse (fun h => nomatch h)
  | .null, .obj _ => .isFalse (fun h => nomatch h)
  | .bool _, .null => .isFalse (fun h => nomatch h)
  | .bool _, .int _ => .isFalse (fun h => nomatch h)
  | .bool _, .str _ => .isFalse (fun h => nomatch h)
  | .bool _, .arr _ => .isFalse (fun h => nomatch h)
  | .bool _, .obj _ => .isFalse (fun h => nomatch h)
  | .int _, .null => .isFalse (fun h => nomatch h)
  | .int _, .bool _ => .isFalse (fun h => nomatch h)
  | .int _, .str _ => .isFalse (fun h => nomatch h)
  | .int _, .arr _ => .isFalse (fun h => nomatch h)
  | .int _, .obj _ => .isFalse (fun h => nomatch h)
  | .str _, .null => .isFalse (fun h => nomatch h)
  | .str _, .bool _ => .isFalse (fun h => nomatch h)
  | .str _, .int _ => .isFalse (fun h => nomatch h)
  | .str _, .arr _ => .isFalse (fun h => nomatch h)
  | .str _, .obj _ => .isFalse (fun h => nomatch h)
  | .arr _, .null => .isFalse (fun h => nomatch h)
  | .arr _, .bool _ => .isFalse (fun h => nomatch h)
  | .arr _, .int _ => .isFalse (fun h => nomatch h)
  | .arr _, .str _ => .isFalse (fun h => nomatch h)
  | .arr _, .obj _ => .isFalse (fun h => nomatch h)
  | .obj _, .null => .isFalse (fun h => nomatch h)
  | .obj _, .bool _ => .isFalse (fun h => nomatch h)
  | .obj _, .int _ => .isFalse (fun h => nomatch h)
  | .obj _, .str _ => .isFalse (fun h => nomatch h)
  | .obj _, .arr _ => .isFalse (fun h => nomatch h)

/-- Decidable equality on lists of `JValue`. -/
def jdecEqArr : (xs ys : List JValue) → Decidable (xs = ys)
  | [], [] => .isTrue rfl
  | [], _ :: _ => .isFalse (fun h => nomatch h)
  | _ :: _, [] => .isFalse (fun h => nomatch h)
  | x :: xs, y :: ys =>
      match jdecEq x y with
      | .isFalse h => .isFalse (by intro e; injection e with h1 _; exact h h1)
      | .isTrue h1 =>
          match jdecEqArr xs ys with
          | .isTrue h2 => .isTrue (by rw [h1, h2])
          | .isFalse h => .isFalse (by intro e; injection e with _ h2; exact h h2)

/-- Decidable equality on dictionary entry lists. -/
def jdecEqObj : (fs gs : List (String × JValue)) → Decidable (fs = gs)
  | [], [] => .isTrue rfl
  | [], _ :: _ => .isFalse (fun h => nomatch h)
  | _ :: _, [] => .isFalse (fun h => nomatch h)
  | (k, v) :: fs, (l, w) :: gs =>
      if hk : k = l then
        match jdecEq v w with
        | .isFalse h =>
            .isFalse (by
              intro e; injection e with h1 _
              exact h (congrArg Prod.snd h1))
        | .isTrue hv =>
            match jdecEqObj fs gs with
            | .isTrue h2 => .isTrue (by rw [hk, hv, h2])
            | .isFalse h => .isFalse (by intro e; injection e with _ h2; exact h h2)
      else
        .isFalse (by
          intro e; injection e with h1 _
          exact hk (congrArg Prod.fst h1))

end

instance : DecidableEq JValue := jdecEq

/-- Model of Python `d.get(k)` restricted to its `Some`/missing structure:
returns the first value stored under `k`, or `none` when the value is not
a dictionary or the key is absent. -/
def jget (d : JValue) (k : String) : Option JValue :=
  match d with
  | .obj fs => fs.lookup k
  | _ => none

/-- Model of Python `d.get(k)` proper: a missing key yields Python `None`,
which is `JValue.null` in this embedding. -/
def jgetPy (d : JValue) (k : String) : JValue :=
  (jget d k).getD .null

/-- Model of Python `d.get(k, default)`. -/
def jgetD (d : JValue) (k : String) (default : JValue) : JValue :=
  (jget d k).getD default

/-- Model of Python truthiness on our values: `None`/`False`/`0`/empty
containers and strings are falsy, everything else truthy. -/
def jTruthy : JValue → Bool
  | .null => false
  | .bool b => b
  | .int n => decide (n ≠ 0)
  | .str s => decide (s ≠ "")
  | .arr xs => decide (xs ≠ [])
  | .obj fs => decide (fs ≠ [])

/-- Model of Python truthiness of an `os.getenv` result: `None` and the
empty string are falsy. -/
def pyOptStrFalsy : Option String → Bool
  | none => true
  | some s => decide (s = "")

/-- Characters stripped by Python `str.strip()` (the ASCII whitespace
class; the repository's inputs are code text, for which this is the
relevant fragment). -/
def pyIsSpace (c : Char) : Bool :=
  c = ' ' || c = '\t' || c = '\n' || c = '\x0d' || c = '\x0b' || c = '\x0c'

/-- Model of Python `str.strip()`. -/
def pyStrip (s : String) : String :=
  ⟨((s.data.dropWhile pyIsSpace).reverse.dropWhile pyIsSpace).reverse⟩

/-- Decimal digit character for `n < 10`. -/
def digitChar10 : Nat → Char
  | 0 => '0' | 1 => '1' | 2 => '2' | 3 => '3' | 4 => '4'
  | 5 => '5' | 6 => '6' | 7 => '7' | 8 => '8' | _ => '9'

/-- Fueled auxiliary for decimal digit strings (fuel keeps the recursion
structural so that kernel evaluation works). -/
def natDigitsAux : Nat → Nat → List Char
  | 0, _ => []
  | fuel + 1, n =>
      if n < 10 then [digitChar10 n]
      else natDigitsAux fuel (n / 10) ++ [digitChar10 (n % 10)]

/-- Decimal digit string of a natural number, most significant first. -/
def natDigits (n : Nat) : List Char :=
  natDigitsAux (n + 1) n

/-- Decimal rendering of an integer, as Python `str`/`json.dumps` print it. -/
def intDigits (n : Int) : List Char :=
  if n < 0 then '-' :: natDigits n.natAbs else natDigits n.toNat

mutual

/-- Model of Python `str()` applied to one of our values (used by the
f-strings of `lineage_visualizer.py`). Containers print via `repr` of
their elements, as Python does. -/
def pyStr : JValue → String
  | .null => "None"
  | .bool b => if b then "True" else "False"
  | .int n => ⟨intDigits n⟩
  | .str s => s
  | .arr xs => "[" ++ pyReprArr xs ++ "]"
  | .obj fs => "\x7b" ++ pyReprObj fs ++ "\x7d"

/-- Model of Python `repr()` applied to one of our values. -/
def pyRepr : JValue → String
  | .null => "None"
  | .bool b => if b then "True" else "False"
  | .int n => ⟨intDigits n⟩
  | .str s =>
      if s.contains '\'' && !(s.contains '"') then "\"" ++ s ++ "\""
      else "'" ++ s ++ "'"
  | .arr xs => "[" ++ pyReprArr xs ++ "]"
  | .obj fs => "\x7b" ++ pyReprObj fs ++ "\x7d"

/-- Comma-separated `repr` list, as in Python list printing. -/
def pyReprArr : List JValue → String
  | [] => ""
  | [x] => pyRepr x
  | x :: xs => pyRepr x ++ ", " ++ pyReprArr xs

/-- Comma-separated `repr` dictionary body, as in Python dict printing. -/
def pyReprObj : List (String × JValue) → String
  | [] => ""
  | [(k, v)] => pyRepr (.str k) ++ ": " ++ pyRepr v
  | (k, v) :: fs => pyRepr (.str k) ++ ": " ++ pyRepr v ++ ", " ++ pyReprObj fs

end

/-- Lower-case hexadecimal digit character for `n < 16`, as Python's
`'\x7b0:04x\x7d'.format` produces them in `json.dumps(ensure_ascii=True)`. -/
def hexDigitChar : Nat → Char
  | 0 => '0' | 1 => '1' | 2 => '2' | 3 => '3' | 4 => '4' | 5 => '5'
  | 6 => '6' | 7 => '7' | 8 => '8' | 9 => '9' | 10 => 'a' | 11 => 'b'
  | 12 => 'c' | 13 => 'd' | 14 => 'e' | _ => 'f'

/-- Four-digit hexadecimal rendering of `n < 0x10000`. -/
def hex4 (n : Nat) : List Char :=
  [hexDigitChar (n / 4096 % 16), hexDigitChar (n / 256 % 16),
   hexDigitChar (n / 16 % 16), hexDigitChar (n % 16)]

/-- Model of the per-character escaping of Python
`json.encoder.py_encode_basestring_ascii` (the `ensure_ascii=True` default
used by both `json.dumps` call sites of the repository): short escapes for
the usual control characters, `\uXXXX` for other non-printable or
non-ASCII characters, and surrogate pairs above `0xFFFF`. -/
def escapeChar (c : Char) : List Char :=
  if c = '"' then ['\\', '"']
  else if c = '\\' then ['\\', '\\']
  else if c = '\n' then ['\\', 'n']
  else if c = '\t' then ['\\', 't']
  else if c = '\r' then ['\\', 'r']
  else if c = '\x08' then ['\\', 'b']
  else if c = '\x0c' then ['\\', 'f']
  else if c.toNat < 0x20 then '\\' :: 'u' :: hex4 c.toNat
  else if c.toNat ≤ 0x7e then [c]
  else if c.toNat ≤ 0xffff then '\\' :: 'u' :: hex4 c.toNat
  else
    '\\' :: 'u' :: hex4 (0xd800 + (c.toNat - 0x10000) / 0x400) ++
      ('\\' :: 'u' :: hex4 (0xdc00 + (c.toNat - 0x10000) % 0x400))

/-- Escape every character of a string body. -/
def escChars : List Char → List Char
  | [] => []
  | c :: cs => escapeChar c ++ escChars cs

/-- JSON string literal for `s`, quotes included. -/
def dumpStr (s : String) : List Char :=
  '"' :: escChars s.data ++ ['"']

/-- Newline followed by `i * lvl` spaces: the indentation emitted by
`json.dumps(..., indent=i)` at nesting level `lvl`. -/
def nlIndent (i lvl : Nat) : List Char :=
  '\n' :: List.replicate (i * lvl) ' '

/-- Characters before the first container item: nothing in compact mode,
newline plus one-deeper indentation in indent mode. -/
def firstPad : Option Nat → Nat → List Char
  | none, _ => []
  | some i, lvl => nlIndent i (lvl + 1)

/-- Characters before a container's closing bracket: nothing in compact
mode, newline plus this level's indentation in indent mode. -/
def closePad : Option Nat → Nat → List Char
  | none, _ => []
  | some i, lvl => nlIndent i lvl

/-- Item separator: `', '` in compact mode, `','` in indent mode (Python
switches the default separators when `indent` is given). -/
def itemSep (ind : Option Nat) (lvl : Nat) : List Char :=
  match ind with
  | none => [',', ' ']
  | some i => ',' :: nlIndent i (lvl + 1)

mutual

/-- Model of Python `json.dumps(v)` (as a character list): `ind = none`
is the compact default used for node/edge tooltips in
`lineage_visualizer.py`, `ind = some 2` is the `indent=2` form used for
the JSON download in `additional_features.py`. `lvl` is the current
nesting depth. -/
def dumpVal (ind : Option Nat) (lvl : Nat) : JValue → List Char
  | .null => "null".data
  | .bool b => if b then "true".data else "false".data
  | .int n => intDigits n
  | .str s => dumpStr s
  | .arr [] => "[]".data
  | .arr (x :: xs) =>
      '[' :: (firstPad ind lvl ++ dumpVal ind (lvl + 1) x ++
        dumpArrTail ind lvl xs ++ closePad ind lvl ++ [']'])
  | .obj [] => "\x7b\x7d".data
  | .obj ((k, v) :: fs) =>
      '\x7b' :: (firstPad ind lvl ++ dumpStr k ++ ':' :: ' ' ::
        dumpVal ind (lvl + 1) v ++ dumpObjTail ind lvl fs ++
        closePad ind lvl ++ ['\x7d'])

/-- Remaining array items, each preceded by the item separator. -/
def dumpArrTail (ind : Option Nat) (lvl : Nat) : List JValue → List Char
  | [] => []
  | x :: xs =>
      itemSep ind lvl ++ dumpVal ind (lvl + 1) x ++ dumpArrTail ind lvl xs

/-- Remaining object items, each preceded by the item separator. -/
def dumpObjTail (ind : Option Nat) (lvl : Nat) : List (String × JValue) → List Char
  | [] => []
  | (k, v) :: fs =>
      itemSep ind lvl ++ dumpStr k ++ ':' :: ' ' ::
        dumpVal ind (lvl + 1) v ++ dumpObjTail ind lvl fs

end

/-- Model of Python `json.dumps`. -/
def pyJsonDumps (ind : Option Nat) (v : JValue) : String :=
  ⟨dumpVal ind 0 v⟩

/-- JSON insignificant whitespace, as accepted by `json.loads`. -/
def isJsonWs (c : Char) : Bool :=
  c = ' ' || c = '\t' || c = '\n' || c = '\r'

/-- Drop leading JSON whitespace. -/
def skipWs : List Char → List Char
  | [] => []
  | c :: cs => if isJsonWs c then skipWs cs else c :: cs

/-- Hexadecimal digit value, both cases accepted (as in `json.loads`). -/
def fromHexDigit : Char → Option Nat
  | '0' => some 0 | '1' => some 1 | '2' => some 2 | '3' => some (2 + 1)
  | '4' => some 4 | '5' => some 5 | '6' => some 6 | '7' => some (6 + 1)
  | '8' => some 8 | '9' => some 9
  | 'a' => some 10 | 'b' => some 11 | 'c' => some 12 | 'd' => some 13
  | 'e' => some 14 | 'f' => some 15
  | 'A' => some 10 | 'B' => some 11 | 'C' => some 12 | 'D' => some 13
  | 'E' => some 14 | 'F' => some 15
  | _ => none

/-- Read exactly four hexadecimal digits (the `XXXX` of a `\uXXXX`). -/
def parse4Hex : List Char → Option (Nat × List Char)
  | c1 :: c2 :: c3 :: c4 :: rest =>
      match fromHexDigit c1, fromHexDigit c2, fromHexDigit c3, fromHexDigit c4 with
      | some d1, some d2, some d3, some d4 =>
          some (d1 * 4096 + d2 * 256 + d3 * 16 + d4, rest)
      | _, _, _, _ => none
  | _ => none

/-- Short backslash escapes accepted by `json.loads`. -/
def simpleEscape : Char → Option Char
  | '"' => some '"'
  | '\\' => some '\\'
  | '/' => some '/'
  | 'b' => some '\x08'
  | 'f' => some '\x0c'
  | 'n' => some '\n'
  | 'r' => some '\r'
  | 't' => some '\t'
  | _ => none

/-- Model of `json.decoder.py_scanstring` (strict mode, the `json.loads`
default), on the characters after the opening quote: literal characters up
to the closing quote, short escapes, `\uXXXX` with surrogate-pair
combination. Lone surrogates (which Lean's `Char` cannot carry) make the
model reject. The fuel argument keeps recursion structural; one unit per
decoded character is always enough. -/
def parseStringAux : Nat → List Char → Option (List Char × List Char)
  | 0, _ => none
  | _ + 1, [] => none
  | fuel + 1, c :: cs =>
      if c = '"' then some ([], cs)
      else if c = '\\' then
        match cs with
        | [] => none
        | e :: cs' =>
            if e = 'u' then
              match parse4Hex cs' with
              | none => none
              | some (m, cs'') =>
                  if 0xd800 ≤ m ∧ m ≤ 0xdbff then
                    match cs'' with
                    | '\\' :: 'u' :: cs3 =>
                        match parse4Hex cs3 with
                        | some (m2, cs4) =>
                            if 0xdc00 ≤ m2 ∧ m2 ≤ 0xdfff then
                              (parseStringAux fuel cs4).map (fun p =>
                                (Char.ofNat (0x10000 + (m - 0xd800) * 0x400 +
                                  (m2 - 0xdc00)) :: p.1, p.2))
                            else none
                        | none => none
                    | _ => none
                  else if 0xdc00 ≤ m ∧ m ≤ 0xdfff then none
                  else
                    (parseStringAux fuel cs'').map (fun p => (Char.ofNat m :: p.1, p.2))
            else
              match simpleEscape e with
              | some d => (parseStringAux fuel cs').map (fun p => (d :: p.1, p.2))
              | none => none
      else if c.toNat < 0x20 then none
      else (parseStringAux fuel cs).map (fun p => (c :: p.1, p.2))

/-- Digit value of a decimal digit character. -/
def digitVal (c : Char) : Nat := c.toNat - 48

/-- Value of a most-significant-first decimal digit list. -/
def digitsToNat (ds : List Char) : Nat :=
  ds.foldl (fun a c => a * 10 + digitVal c) 0

/-- Read a maximal nonempty run of decimal digits. -/
def parseNat (cs : List Char) : Option (Nat × List Char) :=
  match cs.span Char.isDigit with
  | (ds, rest) => if ds.isEmpty then none else some (digitsToNat ds, rest)

/-- Read a JSON integer (an optional minus sign and digits; the repository's
schema declares no floating-point fields, so fractions/exponents are outside
the modelled value space). -/
def parseNumber (cs : List Char) : Option (JValue × List Char) :=
  if cs.head? = some '-' then
    (parseNat cs.tail).map (fun p => (.int (-(p.1 : Int)), p.2))
  else (parseNat cs).map (fun p => (.int (p.1 : Int), p.2))

/-- Model of building a Python `dict` from a key/value pair list: a repeated
key keeps its first position but takes the latest value. -/
def pyDictInsert (fs : List (String × JValue)) (k : String) (v : JValue) :
    List (String × JValue) :=
  if fs.any (fun p => p.1 == k) then
    fs.map (fun p => if p.1 == k then (p.1, v) else p)
  else fs ++ [(k, v)]

/-- Fold a parsed pair list into Python-`dict` form. -/
def dedupPairs (ps : List (String × JValue)) : List (String × JValue) :=
  ps.foldl (fun acc p => pyDictInsert acc p.1 p.2) []

mutual

/-- Model of the `json.loads` value scanner. Fueled to keep the mutual
recursion structural; `parseValue`/`parseElems`/`parseFields` consume at
least one character per two fuel units, so the fuel chosen in
`pyJsonLoads` never runs out. -/
def parseValue : Nat → List Char → Option (JValue × List Char)
  | 0, _ => none
  | fuel + 1, cs =>
      match skipWs cs with
      | [] => none
      | c :: cs' =>
          if c = '"' then
            (parseStringAux (cs'.length + 1) cs').map (fun p => (.str ⟨p.1⟩, p.2))
          else if c = '[' then
            let cs'' := skipWs cs'
            if cs''.head? = some ']' then some (.arr [], cs''.tail)
            else (parseElems fuel cs'').map (fun p => (.arr p.1, p.2))
          else if c = '\x7b' then
            let cs'' := skipWs cs'
            if cs''.head? = some '\x7d' then some (.obj [], cs''.tail)
            else (parseFields fuel cs'').map (fun p => (.obj (dedupPairs p.1), p.2))
          else if c = 'n' then
            match cs' with
            | 'u' :: 'l' :: 'l' :: r => some (.null, r)
            | _ => none
          else if c = 't' then
            match cs' with
            | 'r' :: 'u' :: 'e' :: r => some (.bool true, r)
            | _ => none
          else if c = 'f' then
            match cs' with
            | 'a' :: 'l' :: 's' :: 'e' :: r => some (.bool false, r)
            | _ => none
          else parseNumber (c :: cs')

/-- Nonempty array bodies: a value, then `,` and more items or `]`. -/
def parseElems : Nat → List Char → Option (List JValue × List Char)
  | 0, _ => none
  | fuel + 1, cs =>
      (parseValue fuel cs).bind (fun vr =>
        let r₁ := skipWs vr.2
        if r₁.head? = some ',' then
          (parseElems fuel r₁.tail).map (fun p => (vr.1 :: p.1, p.2))
        else if r₁.head? = some ']' then some ([vr.1], r₁.tail)
        else none)

/-- Nonempty object bodies: a quoted key, `:`, a value, then `,` and more
items or the closing brace. -/
def parseFields : Nat → List Char → Option (List (String × JValue) × List Char)
  | 0, _ => none
  | fuel + 1, cs =>
      let cs₁ := skipWs cs
      if cs₁.head? = some '"' then
        (parseStringAux (cs₁.tail.length + 1) cs₁.tail).bind (fun kr =>
          let r₁ := skipWs kr.2
          if r₁.head? = some ':' then
            (parseValue fuel r₁.tail).bind (fun vr =>
              let r₂ := skipWs vr.2
              if r₂.head? = some ',' then
                (parseFields fuel r₂.tail).map (fun p => ((⟨kr.1⟩, vr.1) :: p.1, p.2))
              else if r₂.head? = some '\x7d' then some ([(⟨kr.1⟩, vr.1)], r₂.tail)
              else none)
          else none)
      else none

end

/-- Model of Python `json.loads`: parse one value, allow only trailing
whitespace (anything more is json's "Extra data" error, modelled as
`none`). -/
def pyJsonLoads (s : String) : Option JValue :=
  match parseValue (2 * s.data.length + 2) s.data with
  | some (v, rest) => if skipWs rest = [] then some v else none
  | none => none

mutual

/-- Well-formed values: every object has pairwise-distinct keys, at every
nesting level. Dictionaries arising from Python (in particular everything
`json.loads` returns) have this shape. -/
def jwf : JValue → Bool
  | .null => true
  | .bool _ => true
  | .int _ => true
  | .str _ => true
  | .arr xs => jwfArr xs
  | .obj fs => jwfObj fs

/-- Well-formedness of each element of an array. -/
def jwfArr : List JValue → Bool
  | [] => true
  | x :: xs => jwf x && jwfArr xs

/-- Well-formedness of object entries: the head key is absent from the
tail, and every value is well-formed. -/
def jwfObj : List (String × JValue) → Bool
  | [] => true
  | (k, v) :: fs => !(fs.any (fun p => p.1 == k)) && jwf v && jwfObj fs

end

mutual

/-- Fuel bound sufficient for `parseValue` to scan the dump of a value. -/
def jfuel : JValue → Nat
  | .null => 1
  | .bool _ => 1
  | .int _ => 1
  | .str _ => 1
  | .arr xs => 1 + jfuelArr xs
  | .obj fs => 1 + jfuelObj fs

/-- Fuel bound for `parseElems` on an array body. -/
def jfuelArr : List JValue → Nat
  | [] => 1
  | x :: xs => 1 + jfuel x + jfuelArr xs

/-- Fuel bound for `parseFields` on an object body. -/
def jfuelObj : List (String × JValue) → Nat
  | [] => 1
  | (_, v) :: fs => 1 + jfuel v + jfuelObj fs

end

/-- Attribute dictionaries attached to graph nodes/edges. -/
abbrev Attrs := List (String × JValue)

/-- Model of a `networkx.DiGraph`: insertion-ordered nodes (keyed by an
arbitrary hashable value, here a `JValue`) with attribute dictionaries,
and insertion-ordered directed edges keyed by their endpoint pair. -/
structure NXGraph where
  nodes : List (JValue × Attrs)
  edges : List (JValue × JValue × Attrs)
deriving Repr, DecidableEq

/-- The empty graph (`nx.DiGraph()`). -/
def NXGraph.empty : NXGraph := ⟨[], []⟩

/-- Merge `new` attribute entries into `old` (Python `dict.update`
semantics: an existing key keeps its position and takes the new value). -/
def attrsUpdate (old new : Attrs) : Attrs :=
  new.foldl (fun acc p => pyDictInsert acc p.1 p.2) old

/-- Model of `DiGraph.add_node`: rejects `None` (networkx raises
`ValueError("None cannot be a node")`), updates the attribute dictionary
of an existing node in place, appends a fresh node. -/
def NXGraph.add_node (g : NXGraph) (n : JValue) (attrs : Attrs) :
    Except String NXGraph :=
  if n = .null then .error "None cannot be a node"
  else if g.nodes.any (fun p => p.1 == n) then
    .ok { g with nodes := g.nodes.map (fun p => if p.1 == n then (p.1, attrsUpdate p.2 attrs) else p) }
  else .ok { g with nodes := g.nodes ++ [(n, attrs)] }

/-- Model of `DiGraph.add_edge`: rejects `None` endpoints, silently adds
missing endpoint nodes (with empty attribute dictionaries), updates an
existing `(u, v)` edge's attributes in place, appends a fresh edge. -/
def NXGraph.add_edge (g : NXGraph) (u v : JValue) (attrs : Attrs) :
    Except String NXGraph :=
  if u = .null || v = .null then .error "None cannot be a node"
  else
    let ns1 := if g.nodes.any (fun p => p.1 == u) then g.nodes else g.nodes ++ [(u, [])]
    let ns2 := if ns1.any (fun p => p.1 == v) then ns1 else ns1 ++ [(v, [])]
    if g.edges.any (fun e => e.1 == u && e.2.1 == v) then
      .ok { nodes := ns2,
            edges := g.edges.map (fun e =>
              if e.1 == u && e.2.1 == v then (e.1, e.2.1, attrsUpdate e.2.2 attrs) else e) }
    else .ok { nodes := ns2, edges := g.edges ++ [(u, v, attrs)] }

/-- Per-node work of the node loop of `render_lineage_graph`
(`lineage_visualizer.py` lines 32–39): read `id`, default `label` to the
id, default `group` to `"unknown"`, default the tooltip text to
`f"ID: $id$\\nType: $group$"` (the Python source writes a literal
backslash-n there), and `json.dumps` the tooltip. Yields the node key and
its attribute dictionary. A non-dictionary entry raises in Python
(`AttributeError` on `.get`), modelled as `.error`. -/
def nodeEntry (node_data : JValue) : Except String (JValue × Attrs) :=
  match node_data with
  | .obj _ =>
      let node_id := jgetPy node_data "id"
      let label := jgetD node_data "label" node_id
      let group := jgetD node_data "group" (.str "unknown")
      let title_text := jgetD node_data "title"
        (.str ("ID: " ++ pyStr node_id ++ "\\nType: " ++ pyStr group))
      let title := pyJsonDumps none title_text
      .ok (node_id, [("label", label), ("group", group), ("title", .str title)])
  | _ => .error "'node_data' has no attribute 'get'"

/-- Per-edge work of the edge loop of `render_lineage_graph` (lines
42–48): read `source`/`target`, default `label` to `""`, default the
tooltip text to the label, `json.dumps` the tooltip. Yields the endpoints
and the edge attribute dictionary — note the source attaches only `title`
and `label`, and in that order. -/
def edgeEntry (edge_data : JValue) : Except String (JValue × JValue × Attrs) :=
  match edge_data with
  | .obj _ =>
      let source := jgetPy edge_data "source"
      let target := jgetPy edge_data "target"
      let label := jgetD edge_data "label" (.str "")
      let title_text := jgetD edge_data "title" label
      let title := pyJsonDumps none title_text
      .ok (source, target, [("title", .str title), ("label", label)])
  | _ => .error "'edge_data' has no attribute 'get'"

/-- The node loop: `for node_data in structured_lineage_data.get("nodes", [])`. -/
def addNodes (g : NXGraph) : List JValue → Except String NXGraph
  | [] => .ok g
  | nd :: nds => do
      let (n, attrs) ← nodeEntry nd
      let g' ← g.add_node n attrs
      addNodes g' nds

/-- The edge loop: `for edge_data in structured_lineage_data.get("edges", [])`. -/
def addEdges (g : NXGraph) : List JValue → Except String NXGraph
  | [] => .ok g
  | ed :: eds => do
      let (u, v, attrs) ← edgeEntry ed
      let g' ← g.add_edge u v attrs
      addEdges g' eds

/-- Graph construction of `render_lineage_graph` (the body of its `try`
block up to `net.from_nx(G)`): iterate the `nodes` list then the `edges`
list. Iterating a non-list raises in Python, modelled as `.error`. -/
def buildGraph (structured_lineage_data : JValue) : Except String NXGraph := do
  let ns ← match jgetD structured_lineage_data "nodes" (.arr []) with
    | .arr ns => Except.ok ns
    | _ => Except.error "'nodes' is not iterable as a list"
  let es ← match jgetD structured_lineage_data "edges" (.arr []) with
    | .arr es => Except.ok es
    | _ => Except.error "'edges' is not iterable as a list"
  let g ← addNodes NXGraph.empty ns
  addEdges g es

/-- Observable outcome of `render_lineage_graph`: an informational
message, an error banner, a rendered graph, or the `except`-branch error
banner around graph construction. -/
inductive RenderResult where
  | info (msg : String)
  | errorMsg (msg : String)
  | rendered (g : NXGraph)
  | renderError (msg : String)
deriving Repr, DecidableEq

/-- Model of `render_lineage_graph` (`lineage_visualizer.py`): empty/`None`
data or a missing `nodes` key shows an info message; a truthy `error`
field shows an error banner and returns before any graph is built;
otherwise the graph is constructed and rendered (construction failures
land in the `except` branch). -/
def render_lineage_graph (structured_lineage_data : JValue) : RenderResult :=
  if !(jTruthy structured_lineage_data) || jgetPy structured_lineage_data "nodes" = .null then
    .info "No structured lineage data available to generate the graph. Please generate the lineage report first."
  else if jTruthy (jgetPy structured_lineage_data "error") then
    .errorMsg ("Error generating graph data from AI: " ++
      pyStr (jgetPy structured_lineage_data "error"))
  else
    match buildGraph structured_lineage_data with
    | .ok g => .rendered g
    | .error e => .renderError ("Error rendering interactive graph: " ++ e)

/-- The `groups` block of the pyvis `set_options` JSON in
`render_lineage_graph`: the per-category visual styles, including the
`unknown` fallback group. -/
def groupsOptions : List (String × JValue) :=
  [("table", .obj [("shape", .str "box"), ("color", .str "#58A6FF"),
      ("font", .obj [("multi", .bool false)])]),
   ("column", .obj [("shape", .str "dot"), ("color", .str "#3FB950"),
      ("font", .obj [("multi", .bool false)])]),
   ("transformation", .obj [("shape", .str "diamond"), ("color", .str "#DD9F1B"),
      ("font", .obj [("multi", .bool false)])]),
   ("unknown", .obj [("shape", .str "triangle"), ("color", .str "#768390"),
      ("font", .obj [("multi", .bool false)])])]

/-- First `n` characters of a string (Python `s[:200]` slicing). -/
def pyTake (s : String) (n : Nat) : String := ⟨s.data.take n⟩

/-- The placeholder key value rejected by `ai_logic.py` and `main.py`. -/
def apiKeyPlaceholder : String := "YOUR_ACTUAL_GEMINI_API_KEY_HERE"

/-- Model of the module body of `ai_logic.py` (lines 13–20) executed at
`from ai_logic import ...`: reads `GEMINI_API_KEY` and raises a
`RuntimeError` when the value is falsy (absent or empty) or equals the
placeholder. -/
def aiLogicImport (gemini_api_key : Option String) : Except String Unit :=
  if pyOptStrFalsy gemini_api_key || gemini_api_key == some apiKeyPlaceholder then
    .error "❌ GEMINI_API_KEY not found or is the placeholder value in your .env file. Please set it correctly to use AI features. Refer to the README for setup instructions."
  else .ok ()

/-- One entry of the provider's model listing (`genai.list_models()`). -/
structure GModel where
  name : String
  supported_generation_methods : List String

/-- The filtering loop of `get_gemini_model`: names of listed models whose
`supported_generation_methods` contain `'generateContent'`. -/
def available_models (ms : List GModel) : List String :=
  (ms.filter (fun m =>
    m.supported_generation_methods.contains "generateContent")).map (fun m => m.name)

/-- The fixed preference list of `get_gemini_model`. -/
def preferred_order : List String :=
  ["models/gemini-1.5-flash", "models/gemini-pro", "models/gemini-1.5-pro"]

/-- The selection logic of `get_gemini_model`: the first preferred model
present among the available ones, otherwise the first available model. -/
def chosen_model_name (avail : List String) : Option String :=
  match preferred_order.find? (fun p => avail.contains p) with
  | some p => some p
  | none => avail.head?

/-- Model of `get_gemini_model` (`ai_logic.py` lines 26–70). `inst` is the
module global `_gemini_model_instance` (the cached handle, identified by
its model name), `ms` the provider's listing, and `constructOk` whether
the local `genai.GenerativeModel(name)` object construction succeeds.
Returns the handle plus the updated global, or the raised exception's
message. -/
def get_gemini_model (inst : Option String) (ms : List GModel) (constructOk : Bool) :
    Except String (String × Option String) :=
  match inst with
  | some m => .ok (m, some m)
  | none =>
      match chosen_model_name (available_models ms) with
      | some n =>
          if constructOk then .ok (n, some n)
          else .error ("Failed to initialize Gemini model '" ++ n ++
            "'. Please check your API key and network access.")
      | none => .error "No suitable Gemini model found that supports 'generateContent'. Please ensure your API key is correct and valid, or check Google AI Studio for available models."

/-- Outcome of one `model_instance.generate_content(...)` call: a response
with a nonempty first candidate/part (carrying its text), an
empty/unexpected response structure, a `BlockedPromptException` (carrying
the block reason name), or any other raised exception (carrying its
message). -/
inductive GenOutcome where
  | ok (text : String)
  | empty
  | blocked (reason : String)
  | exnFail (msg : String)
deriving Repr, DecidableEq

/-- Model of `ask_gemini_text` (`ai_logic.py` lines 73–100). `init` is the
result of its `get_gemini_model()` call. Every failure path returns a
string beginning with the `❌` sentinel; no exception escapes (the model
is a total function). -/
def ask_gemini_text (init : Except String String) (prompt : String)
    (outcome : GenOutcome) : String :=
  match init with
  | .error e => "❌ AI Service Error: " ++ e
  | .ok _ =>
      if pyStrip prompt = "" then
        "❌ Please provide a valid prompt for the AI to process."
      else
        match outcome with
        | .ok t => t
        | .empty => "❌ AI did not return a valid text response. The AI might have refused the query or an internal error occurred. Please try again with different or simpler code."
        | .blocked r => "❌ AI Blocked Content: Your request for text generation was blocked due to safety policy. Details: " ++ r ++ "."
        | .exnFail m => "❌ Gemini Text API Call Failed: " ++ m ++ ". Possible issues: network problem, rate limit, or invalid API key/model access."

/-- Model of `ask_gemini_structured` (`ai_logic.py` lines 103–149). On the
successful-response path, the payload text is parsed with `json.loads`;
the malformed-JSON branch (whose message interpolates the decoder
exception, abstracted here) truncates the raw payload to 200 characters.
Every failure path returns a dictionary whose only key is `error`. -/
def ask_gemini_structured (init : Except String String) (prompt : String)
    (response_schema : JValue) (outcome : GenOutcome) : JValue :=
  match init with
  | .error e => .obj [("error", .str ("❌ AI Service Error (Structured): " ++ e))]
  | .ok _ =>
      if pyStrip prompt = "" then
        .obj [("error", .str "❌ Please provide a valid prompt for structured AI processing.")]
      else if !(jTruthy response_schema) then
        .obj [("error", .str "❌ A response_schema is required for structured AI output.")]
      else
        match outcome with
        | .ok json_text =>
            match pyJsonLoads json_text with
            | some parsed_json => parsed_json
            | none => .obj [("error", .str ("❌ AI returned malformed JSON: invalid JSON. Raw: " ++ pyTake json_text 200 ++ "..."))]
        | .empty => .obj [("error", .str "❌ AI did not return a valid structured response. It might have refused the query or an internal error occurred.")]
        | .blocked r => .obj [("error", .str ("❌ AI Blocked Content (Structured): Your request for structured generation was blocked due to safety policy. Details: " ++ r ++ "."))]
        | .exnFail m => .obj [("error", .str ("❌ Gemini Structured API Call Failed: " ++ m ++ ". Possible issues: network problem, rate limit, or invalid API key/model access."))]

/-- Number of `generate_content` network calls `ask_gemini_text` issues:
none when model initialization failed or the prompt strips to empty. -/
def ask_gemini_text_calls (init : Except String String) (prompt : String) : Nat :=
  match init with
  | .error _ => 0
  | .ok _ => if pyStrip prompt = "" then 0 else 1

/-- Number of `generate_content` network calls `ask_gemini_structured`
issues. -/
def ask_gemini_structured_calls (init : Except String String) (prompt : String)
    (response_schema : JValue) : Nat :=
  match init with
  | .error _ => 0
  | .ok _ =>
      if pyStrip prompt = "" then 0
      else if !(jTruthy response_schema) then 0
      else 1

/-- Startup outcome of `main.py`: halted by the `RuntimeError` raised
while importing `ai_logic` (Streamlit displays the exception), halted by
the in-app warning plus `st.stop()`, or proceeding to the app body. -/
inductive StartupResult where
  | importError (msg : String)
  | keyWarning
  | proceeded
deriving Repr, DecidableEq

/-- The `api_key_set` expression of `main.py` line 39. -/
def api_key_set (gemini_api_key : Option String) : Bool :=
  gemini_api_key.isSome && !(gemini_api_key == some apiKeyPlaceholder)

/-- Model of application startup through `main.py` line 46: importing
`ai_logic` (line 9) runs its module body first; only if that import
succeeds does the `api_key_set` warning check run. -/
def startupCheck (gemini_api_key : Option String) : StartupResult :=
  match aiLogicImport gemini_api_key with
  | .error e => .importError e
  | .ok _ => if api_key_set gemini_api_key then .proceeded else .keyWarning

/-- Streamlit session state: an insertion-ordered string-keyed dictionary. -/
abbrev SessionState := List (String × JValue)

/-- Lookup in session state. -/
def ssGet? (st : SessionState) (k : String) : Option JValue := st.lookup k

/-- Assignment `st.session_state[k] = v`. -/
def ssSet (st : SessionState) (k : String) (v : JValue) : SessionState :=
  pyDictInsert st k v

/-- The guarded deletion `if k in st.session_state: del st.session_state[k]`. -/
def ssDel (st : SessionState) (k : String) : SessionState :=
  st.filter (fun p => !(p.1 == k))

/-- Model of `render_clear_button` (`additional_features.py` lines 41–56):
on click it deletes the keys `etl_code_input`, `lineage_result` and
`structured_lineage_data` (each only if present) and reruns the app. Note
that it deletes `lineage_result`, whereas `main.py` stores the text report
under `lineage_text_output`. -/
def render_clear_button (st : SessionState) : SessionState :=
  ssDel (ssDel (ssDel st "etl_code_input") "lineage_result") "structured_lineage_data"

/-- The text appended to the report when the structured response carries a
truthy `error` (`main.py` lines 255–257). -/
def graphIssueNote (errVal : JValue) : String :=
  "\n\n---\n\n❌ **Graph Generation Issue:** " ++ pyStr errVal ++ "\n\n" ++
    "The AI struggled to provide data for the interactive graph. " ++
    "Please review the text report and consider simplifying the input for graph generation."

/-- The post-call error check of the button handler (`main.py` lines
253–257): append the graph-generation diagnostic to the text report when
the structured data has a truthy `error` field. -/
def appendGraphIssue (lineage_text_output : String)
    (structured_lineage_data : JValue) : String :=
  if jTruthy (jgetPy structured_lineage_data "error") then
    lineage_text_output ++ graphIssueNote (jgetPy structured_lineage_data "error")
  else lineage_text_output

/-- User-visible message effects of the button handler. -/
inductive UIEffect where
  | warning (msg : String)
deriving Repr, DecidableEq

/-- The `response_schema` dictionary of `main.py` lines 214–247. -/
def response_schema : JValue :=
  .obj [("type", .str "object"),
        ("properties", .obj [
          ("nodes", .obj [("type", .str "array"),
            ("items", .obj [("type", .str "object"),
              ("properties", .obj [
                ("id", .obj [("type", .str "string")]),
                ("label", .obj [("type", .str "string")]),
                ("group", .obj [("type", .str "string"),
                  ("enum", .arr [.str "table", .str "column", .str "transformation"])]),
                ("title", .obj [("type", .str "string")])]),
              ("required", .arr [.str "id", .str "label", .str "group"])])]),
          ("edges", .obj [("type", .str "array"),
            ("items", .obj [("type", .str "object"),
              ("properties", .obj [
                ("source", .obj [("type", .str "string")]),
                ("target", .obj [("type", .str "string")]),
                ("label", .obj [("type", .str "string"),
                  ("enum", .arr [.str "FLOWS_TO", .str "PRODUCES", .str "CONSUMES", .str "IS_PART_OF"])]),
                ("title", .obj [("type", .str "string")]),
                ("confidence_score", .obj [("type", .str "integer")])]),
              ("required", .arr [.str "source", .str "target", .str "label"])])]),
          ("error", .obj [("type", .str "string")])]),
        ("required", .arr [.str "nodes", .str "edges"])]

def text_prompt (current_etl_code_input : String) : String :=
  "\n            As an expert Data Engineer, your task is to analyze the provided ETL code or SQL script.\n            Identify and extract **column-level data lineage**, describing the flow of data from its sources through transformations to its final targets.\n\n            For each target table and column, provide a concise narrative or flow description of how the data for that column is derived.\n            Clearly mention the source columns and the transformations applied.\n\n            Structure the report as follows in Markdown:\n\n            ## Data Flow Summary\n            [A brief, high-level summary of the overall data movement and purpose of the script.]\n\n            ## Detailed Column-Level Lineage\n\n            ### Target Table: `[Target Table Name]`\n            * **`[Target Column Name 1]`**: Derived from `[Source Table.Column(s)]` using transformation `[Description of Transformation]`.\n                * Example: **`fact_sales.total_amount`**: Derived from `staging.sales.units` and `raw_data.products.price` by multiplying `units` by `price` after an inner join, then aggregated by `SUM()`.\n            * **`[Target Column Name 2]`**: Directly mapped from `[Source Table.Column]`.\n                * Example: **`fact_sales.sale_id`**: Directly mapped from `staging.sales.id`.\n            * ...\n\n            ### Target Table: `[Another Target Table Name]`\n            * ...\n\n            ## Key Dependencies and Transformations\n            [A brief narrative summarizing common joins, filtering, or complex transformations that are critical to the data flow.]\n\n            ## Transformation Summary\n            List all distinct types of transformations detected in the ETL code (e.g., `JOIN`, `SUM()`, `CAST`, `CASE WHEN`, `GROUP BY`, `LAG`, `COALESCE`, `FILTER`, `SELECT`, `MERGE`, `UNION`).\n\n            ---\n\n            If you cannot extract lineage, state \"❌ Lineage extraction failed: [Reason]\".\n            \n            **ETL Code/SQL Script:**\n            ```\n            " ++
  current_etl_code_input ++
  "\n            ```\n            "

def structured_prompt (current_etl_code_input : String) : String :=
  "\n            As an expert Data Engineer, your task is to analyze the provided ETL code or SQL script and extract **column-level data lineage** in a structured JSON format suitable for a graph database or visualization.\n\n            Represent each table and column as a **node**.\n            Represent lineage relationships (data flow) and transformations as **edges**.\n\n            Node Types (groups):\n            - `table`: Represents a database table.\n            - `column`: Represents a column within a table.\n            - `transformation`: Represents a data transformation operation.\n\n            Edge Types (labels):\n            - `FLOWS_TO`: From source column to target column.\n            - `PRODUCES`: From transformation node to target column.\n            - `CONSUMES`: From source column to transformation node.\n            - `IS_PART_OF`: From column node to table node.\n\n            For each edge representing a `FLOWS_TO`, `PRODUCES`, or `CONSUMES` relationship, also provide a `confidence_score` (integer, from 1 to 5) indicating your certainty that the lineage or transformation step is correctly identified.\n            - 5: Highly confident, directly mapped or clearly defined transformation.\n            - 4: Confident, clear transformation but might involve implicit logic.\n            - 3: Moderately confident, inferred transformation, minor ambiguities possible.\n            - 2: Low confidence, heavily inferred, significant ambiguities or complex logic.\n            - 1: Very low confidence, highly ambiguous or speculative mapping.\n\n            Provide the output as a JSON object with two main arrays: `nodes` and `edges`.\n\n            **Node Object Structure:**\n            `\x7b \"id\": \"unique_id_string\", \"label\": \"display_name\", \"group\": \"table\" | \"column\" | \"transformation\", \"title\": \"tooltip_text\" \x7d`\n            - `id`: A unique identifier (e.g., `schema.table.column`, `table_name`, `transform_hash`).\n            - `label`: Display name (e.g., `column_name`, `table_name`, `SUM_transform`).\n            - `group`: Categorization for styling (e.g., `table`, `column`, `transformation`).\n            - `title`: Optional detailed tooltip for the node.\n\n            **Edge Object Structure:**\n            `\x7b \"source\": \"source_node_id\", \"target\": \"target_node_id\", \"label\": \"edge_type\", \"title\": \"tooltip_text_for_edge\", \"confidence_score\": 1-5 (optional for IS_PART_OF) \x7d`\n            - `source`: ID of the source node.\n            - `target`: ID of the target node.\n            - `label`: Type of relationship (e.g., `FLOWS_TO`, `PRODUCES`, `CONSUMES`, `IS_PART_OF`).\n            - `title`: Optional detailed tooltip for the edge (e.g., `Transformation: SUM(amount)`).\n            - `confidence_score`: (integer, 1-5) Confidence in this specific lineage connection. Only for `FLOWS_TO`, `PRODUCES`, `CONSUMES` edges.\n\n            **Example Structure for JSON Output (with confidence_score):**\n            ```json\n            \x7b\n                \"nodes\": [\n                    \x7b\"id\": \"raw.transactions\", \"label\": \"transactions\", \"group\": \"table\"\x7d,\n                    \x7b\"id\": \"raw.transactions.transaction_timestamp\", \"label\": \"transaction_timestamp\", \"group\": \"column\", \"title\": \"Source Column\"\x7d,\n                    \x7b\"id\": \"analytics.daily_product_sales\", \"label\": \"daily_product_sales\", \"group\": \"table\"\x7d,\n                    \x7b\"id\": \"analytics.daily_product_sales.sale_date\", \"label\": \"sale_date\", \"group\": \"column\", \"title\": \"Target Column\"\x7d,\n                    \x7b\"id\": \"transform_date_trunc\", \"label\": \"DATE_TRUNC\", \"group\": \"transformation\", \"title\": \"Transformation: Extract Month\"\x7d,\n                    \x7b\"id\": \"raw.transactions.quantity\", \"label\": \"quantity\", \"group\": \"column\"\x7d,\n                    \x7b\"id\": \"ref.products.unit_price\", \"label\": \"unit_price\", \"group\": \"column\"\x7d,\n                    \x7b\"id\": \"transform_gross_revenue\", \"label\": \"SUM(quantity * unit_price)\", \"group\": \"transformation\"\x7d,\n                    \x7b\"id\": \"analytics.daily_product_sales.gross_revenue\", \"label\": \"gross_revenue\", \"group\": \"column\"\x7d\n                ],\n                \"edges\": [\n                    \x7b\"source\": \"raw.transactions.transaction_timestamp\", \"target\": \"transform_date_trunc\", \"label\": \"CONSUMES\", \"title\": \"Input for DATE_TRUNC\", \"confidence_score\": 5\x7d,\n                    \x7b\"source\": \"transform_date_trunc\", \"target\": \"analytics.daily_product_sales.sale_date\", \"label\": \"PRODUCES\", \"title\": \"Result of DATE_TRUNC\", \"confidence_score\": 5\x7d,\n                    \x7b\"source\": \"raw.transactions.quantity\", \"target\": \"transform_gross_revenue\", \"label\": \"CONSUMES\", \"confidence_score\": 4\x7d,\n                    \x7b\"source\": \"ref.products.unit_price\", \"target\": \"transform_gross_revenue\", \"label\": \"CONSUMES\", \"confidence_score\": 4\x7d,\n                    \x7b\"source\": \"transform_gross_revenue\", \"target\": \"analytics.daily_product_sales.gross_revenue\", \"label\": \"PRODUCES\", \"title\": \"Result of SUM(quantity * unit_price)\", \"confidence_score\": 4\x7d,\n                    \x7b\"source\": \"raw.transactions.transaction_timestamp\", \"target\": \"raw.transactions\", \"label\": \"IS_PART_OF\"\x7d,\n                    \x7b\"source\": \"analytics.daily_product_sales.sale_date\", \"target\": \"analytics.daily_product_sales\", \"label\": \"IS_PART_OF\"\x7d\n                ]\n            \x7d\n            ```\n\n            **ETL Code/SQL Script to Analyze:**\n            ```\n            " ++
  current_etl_code_input ++
  "\n            ```\n\n            Please ensure your response is *only* the JSON object defined by the schema, with no additional text or markdown outside the JSON.\n            If lineage cannot be extracted, return: `\x7b \"nodes\": [], \"edges\": [], \"error\": \"Could not extract lineage.\" \x7d`\n            "

/-- Model of the Map-Data-Lineage button handler (`main.py` lines 87–260):
with non-blank input it clears both session values, builds the two
prompts, performs the two AI calls, stores their results and appends the
graph-issue diagnostic when needed; with blank input it only shows a
warning. The result is the new session state, the message effects and the
number of network calls issued. -/
def mapLineageHandler (current_etl_code_input : String) (st : SessionState)
    (init : Except String String) (textOutcome structuredOutcome : GenOutcome) :
    SessionState × List UIEffect × Nat :=
  if pyStrip current_etl_code_input ≠ "" then
    let st1 := ssSet st "lineage_text_output" (.str "")
    let st2 := ssSet st1 "structured_lineage_data" (.obj [])
    let tp := text_prompt current_etl_code_input
    let sp := structured_prompt current_etl_code_input
    let textRes := ask_gemini_text init tp textOutcome
    let structRes := ask_gemini_structured init sp response_schema structuredOutcome
    let st3 := ssSet st2 "lineage_text_output" (.str textRes)
    let st4 := ssSet st3 "structured_lineage_data" structRes
    let st5 := ssSet st4 "lineage_text_output" (.str (appendGraphIssue textRes structRes))
    (st5, [],
      ask_gemini_text_calls init tp + ask_gemini_structured_calls init sp response_schema)
  else
    (st, [.warning "Please paste some ETL code or SQL script to analyze."], 0)

/-- Rendering outcome of the download section: the two download buttons
(with their exact payloads) or the informational message. -/
inductive DownloadRender where
  | buttons (markdown_data : String) (json_data : String)
  | info (msg : String)
deriving Repr, DecidableEq

/-- Model of `render_download_section` (`additional_features.py` lines
6–39): both buttons are offered exactly when both arguments are truthy;
the Markdown payload is the report itself and the JSON payload is
`json.dumps(lineage_data_structured, indent=2)`. -/
def render_download_section (lineage_data_structured : JValue)
    (lineage_text_report : String) : DownloadRender :=
  if jTruthy lineage_data_structured && decide (lineage_text_report ≠ "") then
    .buttons lineage_text_report (pyJsonDumps (some 2) lineage_data_structured)
  else
    .info "Generate lineage data first to enable download options."

/-- Whether a value is a Python dictionary. -/
def JValue.isObj : JValue → Bool
  | .obj _ => true
  | _ => false

/-- The id read from a `nodes` entry, Python `None` when absent. -/
def nodeIdOf (node_data : JValue) : JValue := jgetPy node_data "id"

/-- The attribute dictionary `render_lineage_graph` attaches to the graph
node built from one `nodes` entry (the body of `nodeEntry`, exposed for
statements about single entries). -/
def nodeAttrs (node_data : JValue) : Attrs :=
  [("label", jgetD node_data "label" (jgetPy node_data "id")),
   ("group", jgetD node_data "group" (.str "unknown")),
   ("title", .str (pyJsonDumps none (jgetD node_data "title"
     (.str ("ID: " ++ pyStr (jgetPy node_data "id") ++ "\\nType: " ++
       pyStr (jgetD node_data "group" (.str "unknown")))))))]

/-- The attribute dictionary attached to the graph edge built from one
`edges` entry (the body of `edgeEntry`). -/
def edgeAttrs (edge_data : JValue) : Attrs :=
  [("title", .str (pyJsonDumps none
      (jgetD edge_data "title" (jgetD edge_data "label" (.str ""))))),
   ("label", jgetD edge_data "label" (.str ""))]

/-- The structured response of the spec's example scenario (input
`SELECT a AS b FROM t`), whose single edge carries `confidence_score: 5`. -/
def exampleLineageResponse : JValue :=
  .obj [("nodes", .arr [
      .obj [("id", .str "t.a"), ("label", .str "a"), ("group", .str "column")],
      .obj [("id", .str "t.b"), ("label", .str "b"), ("group", .str "column")]]),
    ("edges", .arr [
      .obj [("source", .str "t.a"), ("target", .str "t.b"),
        ("label", .str "FLOWS_TO"), ("confidence_score", .int 5)]])]

/-- A successfully parsed response whose two `nodes` entries share the id
`t.a`. -/
def duplicateIdResponse : JValue :=
  .obj [("nodes", .arr [
      .obj [("id", .str "t.a"), ("label", .str "a"), ("group", .str "column")],
      .obj [("id", .str "t.a"), ("label", .str "a2"), ("group", .str "table")]]),
    ("edges", .arr [])]

/-- All characters of a list are JSON whitespace. -/
def wsOnly (cs : List Char) : Prop := ∀ c ∈ cs, isJsonWs c = true

/-- Lists whose head (if any) is not a decimal digit; the shape of every
suffix following a dumped value inside a JSON document. -/
def nonDigitHead (cs : List Char) : Prop :=
  ∀ c, cs.head? = some c → c.isDigit = false

/-- C4 failing input: a session holding pasted code, a generated report
and structured data. -/
def populatedSession : SessionState :=
  [("etl_code_input", .str "SELECT a AS b FROM t"),
   ("lineage_text_output", .str "## Data Flow Summary"),
   ("structured_lineage_data", .obj [("nodes", .arr []), ("edges", .arr [])])]

/-- C4: the spec says the clear action discards both per-session results —
the text report and the structured graph. Evaluating `render_clear_button`
at a populated session state shows that the structured graph and the
editor content are removed but the text report survives: the button
deletes the key `lineage_result`, which nothing ever writes, while the
report lives under `lineage_text_output`. -/
theorem C4_clear_button_keeps_report :
    render_clear_button populatedSession =
      [("lineage_text_output", .str "## Data Flow Summary")] ∧
    ssGet? (render_clear_button populatedSession) "lineage_text_output" =
      some (.str "## Data Flow Summary") ∧
    ssGet? (render_clear_button populatedSession) "structured_lineage_data" = none := by
  refine ⟨?_, ?_, ?_⟩ <;> rfl

/-- C8 counterexample: `GEMINI_API_KEY=""` is a present, non-placeholder
credential, yet startup halts (the `ai_logic` module body raises on any
falsy key), contradicting the claim that startup proceeds for every
configuration with a non-placeholder key present. -/
theorem C8_counterexample :
    (some "" : Option String) ≠ none ∧
    (some "" : Option String) ≠ some apiKeyPlaceholder ∧
    startupCheck (some "") ≠ .proceeded := by
  refine ⟨by decide, by decide, by decide⟩

/-- C8 (amended): startup proceeds past the credential check exactly for a
present, non-empty, non-placeholder key; in every other configuration it
halts at the `ai_logic` import with the `RuntimeError` whose user-visible
message carries the `❌` sentinel (the in-app warning branch of `main.py`
is unreachable, because the import raises first). -/
theorem C8_startup_check (gemini_api_key : Option String) :
    (startupCheck gemini_api_key = .proceeded ↔
      ∃ s, gemini_api_key = some s ∧ s ≠ "" ∧ s ≠ apiKeyPlaceholder) ∧
    (startupCheck gemini_api_key ≠ .proceeded →
      ∃ m t, startupCheck gemini_api_key = .importError m ∧ m = "❌" ++ t) := by
  constructor
  · cases gemini_api_key with
    | none => simp [startupCheck, aiLogicImport, pyOptStrFalsy]
    | some s =>
        by_cases h1 : s = ""
        · subst h1
          simp [startupCheck, aiLogicImport, pyOptStrFalsy]
        · by_cases h2 : s = apiKeyPlaceholder
          · subst h2
            simp [startupCheck, aiLogicImport, pyOptStrFalsy, apiKeyPlaceholder]
          · simp [startupCheck, aiLogicImport, pyOptStrFalsy, h1, h2, api_key_set,
              Option.isSome]
  · intro h
    cases gemini_api_key with
    | none =>
        refine ⟨_, " GEMINI_API_KEY not found or is the placeholder value in your .env file. Please set it correctly to use AI features. Refer to the README for setup instructions.", rfl, rfl⟩
    | some s =>
        by_cases h1 : s = ""
        · subst h1
          refine ⟨_, " GEMINI_API_KEY not found or is the placeholder value in your .env file. Please set it correctly to use AI features. Refer to the README for setup instructions.", rfl, rfl⟩
        · by_cases h2 : s = apiKeyPlaceholder
          · subst h2
            refine ⟨_, " GEMINI_API_KEY not found or is the placeholder value in your .env file. Please set it correctly to use AI features. Refer to the README for setup instructions.", ?_, rfl⟩
            simp [startupCheck, aiLogicImport, pyOptStrFalsy, apiKeyPlaceholder]
          · exfalso
            apply h
            simp [startupCheck, aiLogicImport, pyOptStrFalsy, h1, h2, api_key_set,
              Option.isSome]

/-- C8 witness: the amended theorem applied at the empty-string key. -/
theorem C8_startup_check_witness :
    ∃ m t, startupCheck (some "") = .importError m ∧ m = "❌" ++ t :=
  (C8_startup_check (some "")).2 (by decide)

/-- C10: the two download buttons are offered iff both the structured data
and the report are truthy (non-empty); an error-only structured result
still enables them (with the report and the `indent=2` JSON document as
payloads), while an empty structured dictionary yields the informational
message regardless of the report. -/
theorem C10_download_gating (d : JValue) (r : String) :
    ((∃ md js, render_download_section d r = .buttons md js) ↔
      (jTruthy d = true ∧ r ≠ "")) ∧
    (∀ e, r ≠ "" → render_download_section (.obj [("error", e)]) r =
      .buttons r (pyJsonDumps (some 2) (.obj [("error", e)]))) ∧
    render_download_section (.obj []) r =
      .info "Generate lineage data first to enable download options." := by
  refine ⟨?_, ?_, ?_⟩
  · by_cases h1 : jTruthy d <;> by_cases h2 : r = "" <;>
      simp [render_download_section, h1, h2]
  · intro e hr
    simp [render_download_section, jTruthy, hr]
  · simp [render_download_section, jTruthy]

/-- C10 witness: the gating applied to an error-only dictionary with a
non-empty report. -/
theorem C10_download_gating_witness :
    render_download_section (.obj [("error", .str "Could not extract lineage.")])
      "## Data Flow Summary" =
      .buttons "## Data Flow Summary"
        (pyJsonDumps (some 2) (.obj [("error", .str "Could not extract lineage.")])) :=
  (C10_download_gating (.obj [("error", .str "Could not extract lineage.")])
    "## Data Flow Summary").2.1 (.str "Could not extract lineage.") (by decide)

/-- Reassociation helper: a sentinel-prefixed string stays
sentinel-prefixed under appends. -/
theorem sentinelConcat (p e : String) :
    ("❌" ++ p) ++ e = "❌" ++ (p ++ e) := String.append_assoc "❌" p e

/-- C2: for every prompt and every outcome of the model call, either the
call genuinely succeeded (and `ask_gemini_text` returns the model text
verbatim, `ask_gemini_structured` the parsed JSON object), or the text
path returns a `❌`-sentinel-prefixed string and the structured path a
dictionary whose only key is `error`. In particular every failure —
initialization error, blank prompt, missing schema, empty response,
safety block, raised exception, malformed JSON — lands in the second
disjunct, and both functions are total (no exception escapes). -/
theorem C2_gateway_error_contract (init : Except String String) (prompt : String)
    (schema : JValue) (outcome : GenOutcome) :
    ((∃ t, outcome = .ok t ∧ ask_gemini_text init prompt outcome = t) ∨
      (∃ rest, ask_gemini_text init prompt outcome = "❌" ++ rest)) ∧
    ((∃ t v, outcome = .ok t ∧ pyJsonLoads t = some v ∧
        ask_gemini_structured init prompt schema outcome = v) ∨
      (∃ e, ask_gemini_structured init prompt schema outcome = .obj [("error", .str e)])) := by
  constructor
  · cases init with
    | error e =>
        right
        exact ⟨" AI Service Error: " ++ e, by
          show "❌ AI Service Error: " ++ e = _
          rw [← String.append_assoc]; rfl⟩
    | ok m =>
        by_cases hp : pyStrip prompt = ""
        · right
          refine ⟨" Please provide a valid prompt for the AI to process.", ?_⟩
          show (if pyStrip prompt = "" then _ else _) = _
          rw [if_pos hp]; rfl
        · cases outcome with
          | ok t =>
              left
              refine ⟨t, rfl, ?_⟩
              show (if pyStrip prompt = "" then _ else _) = _
              rw [if_neg hp]
          | empty =>
              right
              refine ⟨" AI did not return a valid text response. The AI might have refused the query or an internal error occurred. Please try again with different or simpler code.", ?_⟩
              show (if pyStrip prompt = "" then _ else _) = _
              rw [if_neg hp]; rfl
          | blocked r =>
              right
              refine ⟨(" AI Blocked Content: Your request for text generation was blocked due to safety policy. Details: " ++ r) ++ ".", ?_⟩
              show (if pyStrip prompt = "" then _ else _) = _
              rw [if_neg hp]
              show ("❌ AI Blocked Content: Your request for text generation was blocked due to safety policy. Details: " ++ r) ++ "." = _
              rw [← String.append_assoc, ← String.append_assoc]; rfl
          | exnFail msg =>
              right
              refine ⟨(" Gemini Text API Call Failed: " ++ msg) ++ ". Possible issues: network problem, rate limit, or invalid API key/model access.", ?_⟩
              show (if pyStrip prompt = "" then _ else _) = _
              rw [if_neg hp]
              show ("❌ Gemini Text API Call Failed: " ++ msg) ++ ". Possible issues: network problem, rate limit, or invalid API key/model access." = _
              rw [← String.append_assoc, ← String.append_assoc]; rfl
  · cases init with
    | error e =>
        exact Or.inr ⟨"❌ AI Service Error (Structured): " ++ e, rfl⟩
    | ok m =>
        by_cases hp : pyStrip prompt = ""
        · right
          refine ⟨"❌ Please provide a valid prompt for structured AI processing.", ?_⟩
          show (if pyStrip prompt = "" then _ else _) = _
          rw [if_pos hp]
        · by_cases hs : jTruthy schema
          · cases outcome with
            | ok t =>
                cases hparse : pyJsonLoads t with
                | some v =>
                    left
                    refine ⟨t, v, rfl, hparse, ?_⟩
                    show (if pyStrip prompt = "" then _ else _) = _
                    rw [if_neg hp, if_neg (by simp [hs])]
                    simp [hparse]
                | none =>
                    right
                    refine ⟨"❌ AI returned malformed JSON: invalid JSON. Raw: " ++
                      pyTake t 200 ++ "...", ?_⟩
                    show (if pyStrip prompt = "" then _ else _) = _
                    rw [if_neg hp, if_neg (by simp [hs])]
                    simp [hparse]
            | empty =>
                right
                refine ⟨"❌ AI did not return a valid structured response. It might have refused the query or an internal error occurred.", ?_⟩
                show (if pyStrip prompt = "" then _ else _) = _
                rw [if_neg hp, if_neg (by simp [hs])]
            | blocked r =>
                right
                refine ⟨"❌ AI Blocked Content (Structured): Your request for structured generation was blocked due to safety policy. Details: " ++ r ++ ".", ?_⟩
                show (if pyStrip prompt = "" then _ else _) = _
                rw [if_neg hp, if_neg (by simp [hs])]
            | exnFail msg =>
                right
                refine ⟨"❌ Gemini Structured API Call Failed: " ++ msg ++ ". Possible issues: network problem, rate limit, or invalid API key/model access.", ?_⟩
                show (if pyStrip prompt = "" then _ else _) = _
                rw [if_neg hp, if_neg (by simp [hs])]
          · right
            refine ⟨"❌ A response_schema is required for structured AI output.", ?_⟩
            show (if pyStrip prompt = "" then _ else _) = _
            rw [if_neg hp, if_pos (by simp [hs])]

/-- A dictionary with a stored key is truthy. -/
theorem jTruthy_of_jget_some {d : JValue} {k : String} {v : JValue}
    (h : jget d k = some v) : jTruthy d = true := by
  cases d with
  | obj fs =>
      simp only [jTruthy, decide_eq_true_eq]
      rintro rfl
      simp [jget] at h
  | null => simp [jget] at h
  | bool b => simp [jget] at h
  | int n => simp [jget] at h
  | str s => simp [jget] at h
  | arr xs => simp [jget] at h

/-- A non-`None` `d.get(k)` result pins down the stored value. -/
theorem jget_of_jgetPy {d : JValue} {k : String} {v : JValue}
    (h : jgetPy d k = v) (hv : v ≠ .null) : jget d k = some v := by
  cases hj : jget d k with
  | none => simp [jgetPy, hj] at h; exact absurd h.symm hv
  | some w => simp [jgetPy, hj] at h; rw [h]

/-- C3: whenever the structured response carries a non-empty `error`
string, the graph renderer produces no graph — it shows either the info
message (when `nodes` is also absent, as for the error-only dictionaries
`ask_gemini_structured` builds) or the error banner — and the button
handler's post-call check appends the graph-generation diagnostic to the
text report. -/
theorem C3_error_field_blocks_graph (d : JValue) (e : String)
    (h1 : jgetPy d "error" = .str e) (h2 : e ≠ "") :
    (∀ g, render_lineage_graph d ≠ .rendered g) ∧
    ((∃ m, render_lineage_graph d = .info m) ∨
      (∃ m, render_lineage_graph d = .errorMsg m)) ∧
    (∀ report, appendGraphIssue report d =
      report ++ graphIssueNote (.str e)) := by
  have hjg : jget d "error" = some (.str e) := jget_of_jgetPy h1 (by simp)
  have htr : jTruthy d = true := jTruthy_of_jget_some hjg
  have herr : jTruthy (jgetPy d "error") = true := by
    rw [h1]; simp [jTruthy, h2]
  have happ : ∀ report, appendGraphIssue report d =
      report ++ graphIssueNote (.str e) := by
    intro report
    unfold appendGraphIssue
    rw [if_pos herr, h1]
  by_cases hn : jgetPy d "nodes" = .null
  · have hrender : render_lineage_graph d =
        .info "No structured lineage data available to generate the graph. Please generate the lineage report first." := by
      unfold render_lineage_graph
      rw [if_pos]
      simp [htr, hn]
    exact ⟨fun g => by simp [hrender], Or.inl ⟨_, hrender⟩, happ⟩
  · have hrender : render_lineage_graph d =
        .errorMsg ("Error generating graph data from AI: " ++
          pyStr (jgetPy d "error")) := by
      unfold render_lineage_graph
      rw [if_neg (by simp [htr, hn]), if_pos herr]
    exact ⟨fun g => by simp [hrender], Or.inr ⟨_, hrender⟩, happ⟩

/-- C3 witness: the spec's example error response, with a report text. -/
theorem C3_error_field_blocks_graph_witness :
    (∀ g, render_lineage_graph
      (.obj [("nodes", .arr []), ("edges", .arr []),
        ("error", .str "Could not extract lineage.")]) ≠ .rendered g) ∧
    ((∃ m, render_lineage_graph
      (.obj [("nodes", .arr []), ("edges", .arr []),
        ("error", .str "Could not extract lineage.")]) = .info m) ∨
      (∃ m, render_lineage_graph
        (.obj [("nodes", .arr []), ("edges", .arr []),
          ("error", .str "Could not extract lineage.")]) = .errorMsg m)) ∧
    (∀ report, appendGraphIssue report
      (.obj [("nodes", .arr []), ("edges", .arr []),
        ("error", .str "Could not extract lineage.")]) =
      report ++ graphIssueNote (.str "Could not extract lineage.")) :=
  C3_error_field_blocks_graph
    (.obj [("nodes", .arr []), ("edges", .arr []),
      ("error", .str "Could not extract lineage.")])
    "Could not extract lineage." (by decide) (by decide)

/-- C6: when the pasted input is empty or whitespace-only, the button
handler issues no network call, leaves the session state untouched, and
shows exactly the warning message. -/
theorem C6_blank_input_is_noop (input : String) (st : SessionState)
    (init : Except String String) (tOut sOut : GenOutcome)
    (h : ∀ c ∈ input.data, pyIsSpace c = true) :
    mapLineageHandler input st init tOut sOut =
      (st, [.warning "Please paste some ETL code or SQL script to analyze."], 0) := by
  have hstrip : pyStrip input = "" := by
    unfold pyStrip
    rw [List.dropWhile_eq_nil_iff.mpr h]
    rfl
  unfold mapLineageHandler
  rw [if_neg (by simp [hstrip])]

/-- C6 witness: a whitespace-only input with a populated session. -/
theorem C6_blank_input_is_noop_witness :
    mapLineageHandler " \t\n " populatedSession (.ok "models/gemini-1.5-flash")
      (.ok "report") (.ok "\x7b\x7d") =
      (populatedSession,
       [.warning "Please paste some ETL code or SQL script to analyze."], 0) :=
  C6_blank_input_is_noop " \t\n " populatedSession (.ok "models/gemini-1.5-flash")
    (.ok "report") (.ok "\x7b\x7d") (by decide)

/-- C5: the model-selection contract of `get_gemini_model`. (1) The first
preference-list model that is among the `generateContent`-capable listed
models is chosen. (2) When no preferred model is capable but some model
is, the first capable model is chosen. (3) With the (purely local) handle
construction succeeding, a fresh call raises exactly when zero listed
models support `generateContent`. (4) Once a call has succeeded, every
later call returns the same cached instance untouched, whatever the
provider would now list — the handle is initialized at most once. -/
theorem C5_model_selection :
    (∀ (ms : List GModel) (p : String), p ∈ preferred_order →
      p ∈ available_models ms →
      (∀ q ∈ preferred_order, preferred_order.indexOf q < preferred_order.indexOf p →
        q ∉ available_models ms) →
      chosen_model_name (available_models ms) = some p) ∧
    (∀ ms : List GModel, (∀ p ∈ preferred_order, p ∉ available_models ms) →
      chosen_model_name (available_models ms) = (available_models ms).head?) ∧
    (∀ ms : List GModel,
      (∃ e, get_gemini_model none ms true = .error e) ↔ available_models ms = []) ∧
    (∀ (ms ms' : List GModel) (constructOk : Bool) (n : String) (s : Option String),
      get_gemini_model none ms true = .ok (n, s) →
      get_gemini_model s ms' constructOk = .ok (n, s)) := by
  refine ⟨?_, ?_, ?_, ?_⟩
  · intro ms p hp hpav hprev
    rcases (by simpa [preferred_order] using hp : p = "models/gemini-1.5-flash" ∨
        p = "models/gemini-pro" ∨ p = "models/gemini-1.5-pro") with rfl | rfl | rfl
    · unfold chosen_model_name preferred_order
      simp [List.find?_cons, hpav]
    · have h1 : "models/gemini-1.5-flash" ∉ available_models ms :=
        hprev _ (by simp [preferred_order]) (by simp [preferred_order])
      unfold chosen_model_name preferred_order
      simp [List.find?_cons, h1, hpav]
    · have h1 : "models/gemini-1.5-flash" ∉ available_models ms :=
        hprev _ (by simp [preferred_order]) (by simp [preferred_order])
      have h2 : "models/gemini-pro" ∉ available_models ms :=
        hprev _ (by simp [preferred_order]) (by simp [preferred_order])
      unfold chosen_model_name preferred_order
      simp [List.find?_cons, h1, h2, hpav]
  · intro ms hnone
    have h1 : "models/gemini-1.5-flash" ∉ available_models ms :=
      hnone _ (by simp [preferred_order])
    have h2 : "models/gemini-pro" ∉ available_models ms :=
      hnone _ (by simp [preferred_order])
    have h3 : "models/gemini-1.5-pro" ∉ available_models ms :=
      hnone _ (by simp [preferred_order])
    unfold chosen_model_name preferred_order
    simp [List.find?_cons, h1, h2, h3]
  · intro ms
    constructor
    · rintro ⟨e, he⟩
      by_contra hne
      have hsome : ∃ n, chosen_model_name (available_models ms) = some n := by
        unfold chosen_model_name
        cases hf : preferred_order.find?
            (fun q => (available_models ms).contains q) with
        | some p => exact ⟨p, rfl⟩
        | none =>
            cases hav : available_models ms with
            | nil => exact absurd hav hne
            | cons a l => exact ⟨a, by simp⟩
      obtain ⟨n, hn⟩ := hsome
      unfold get_gemini_model at he
      rw [hn] at he
      simp at he
    · intro hav
      refine ⟨"No suitable Gemini model found that supports 'generateContent'. Please ensure your API key is correct and valid, or check Google AI Studio for available models.", ?_⟩
      unfold get_gemini_model
      rw [show chosen_model_name (available_models ms) = none from by
        rw [hav]; decide]
  · intro ms ms' constructOk n s h
    unfold get_gemini_model at h
    cases hc : chosen_model_name (available_models ms) with
    | none => rw [hc] at h; simp at h
    | some n' =>
        rw [hc] at h
        simp only [if_pos] at h
        injection h with h'
        injection h' with h1 h2
        subst h1
        subst h2
        rfl

/-- C5 witness: with only `models/gemini-pro` and an uncapable flash model
listed, the stable model is chosen; with an empty listing, initialization
raises. -/
theorem C5_model_selection_witness :
    chosen_model_name (available_models
      [⟨"models/gemini-1.5-flash", ["embedContent"]⟩,
       ⟨"models/gemini-pro", ["generateContent"]⟩]) = some "models/gemini-pro" ∧
    (∃ e, get_gemini_model none [] true = .error e) := by
  constructor
  · exact C5_model_selection.1
      [⟨"models/gemini-1.5-flash", ["embedContent"]⟩,
       ⟨"models/gemini-pro", ["generateContent"]⟩]
      "models/gemini-pro" (by decide) (by decide) (by decide)
  · exact (C5_model_selection.2.2.1 []).mpr (by decide)

/-- C9: a node entry lacking `label`, `group` and `title` is not rejected:
the builder defaults the label to the id, the group to the extra category
`unknown`, and the tooltip to the generated `ID: ...\nType: ...` string
(built from the id and the group); and the `unknown` group has its own
style in the pyvis options, distinct from each of the three declared
categories. -/
theorem C9_node_defaults (fs : List (String × JValue)) (i : JValue)
    (hid : jget (.obj fs) "id" = some i)
    (hlabel : jget (.obj fs) "label" = none)
    (hgroup : jget (.obj fs) "group" = none)
    (htitle : jget (.obj fs) "title" = none) :
    nodeEntry (.obj fs) = .ok (i,
      [("label", i), ("group", .str "unknown"),
       ("title", .str (pyJsonDumps none
         (.str ("ID: " ++ pyStr i ++ "\\nType: " ++ pyStr (.str "unknown")))))]) ∧
    (groupsOptions.lookup "unknown").isSome = true ∧
    groupsOptions.lookup "unknown" ≠ groupsOptions.lookup "table" ∧
    groupsOptions.lookup "unknown" ≠ groupsOptions.lookup "column" ∧
    groupsOptions.lookup "unknown" ≠ groupsOptions.lookup "transformation" := by
  refine ⟨?_, by decide, by decide, by decide, by decide⟩
  have hne : nodeEntry (.obj fs) = .ok (jgetPy (.obj fs) "id", nodeAttrs (.obj fs)) := rfl
  rw [hne]
  simp [nodeAttrs, jgetPy, jgetD, hid, hlabel, hgroup, htitle]

/-- C9 witness: a node entry carrying only an id. -/
theorem C9_node_defaults_witness :
    nodeEntry (.obj [("id", .str "n1")]) = .ok (.str "n1",
      [("label", .str "n1"), ("group", .str "unknown"),
       ("title", .str (pyJsonDumps none
         (.str ("ID: " ++ pyStr (.str "n1") ++ "\\nType: " ++ pyStr (.str "unknown")))))]) ∧
    (groupsOptions.lookup "unknown").isSome = true ∧
    groupsOptions.lookup "unknown" ≠ groupsOptions.lookup "table" ∧
    groupsOptions.lookup "unknown" ≠ groupsOptions.lookup "column" ∧
    groupsOptions.lookup "unknown" ≠ groupsOptions.lookup "transformation" :=
  C9_node_defaults [("id", .str "n1")] (.str "n1") (by decide) (by decide)
    (by decide) (by decide)

/-- C1 counterexample: the spec's example response parses successfully (no
`error`, `nodes` present) and its edge carries `confidence_score: 5`, yet
the built graph's single edge has no `confidence_score` attribute; and a
parseable response with two node entries sharing an id yields one graph
node, not one per element. -/
theorem C1_counterexample :
    jget exampleLineageResponse "error" = none ∧
    (jget exampleLineageResponse "nodes").isSome = true ∧
    jget exampleLineageResponse "edges" = some (.arr
      [.obj [("source", .str "t.a"), ("target", .str "t.b"),
        ("label", .str "FLOWS_TO"), ("confidence_score", .int 5)]]) ∧
    jget (.obj [("source", .str "t.a"), ("target", .str "t.b"),
      ("label", .str "FLOWS_TO"), ("confidence_score", .int 5)])
      "confidence_score" = some (.int 5) ∧
    ((buildGraph exampleLineageResponse).toOption.map (fun g =>
      g.edges.map (fun e => e.2.2.lookup "confidence_score"))) = some [none] ∧
    jget duplicateIdResponse "error" = none ∧
    jget duplicateIdResponse "nodes" = some (.arr [
      .obj [("id", .str "t.a"), ("label", .str "a"), ("group", .str "column")],
      .obj [("id", .str "t.a"), ("label", .str "a2"), ("group", .str "table")]]) ∧
    ((buildGraph duplicateIdResponse).toOption.map (fun g => g.nodes.length)) =
      some 1 := by
  refine ⟨rfl, rfl, rfl, rfl, ?_, rfl, rfl, ?_⟩ <;> decide

/-- Bind of a successful `Except` computation. -/
theorem except_bind_ok {α β : Type} (a : α) (f : α → Except String β) :
    (Except.ok a >>= f) = f a := rfl

/-- A key present among the stored node keys makes the membership scan
succeed. -/
theorem any_fst_eq_true_of_mem {l : List (JValue × Attrs)} {a : JValue}
    (h : a ∈ l.map Prod.fst) : l.any (fun p => p.1 == a) = true := by
  rcases List.mem_map.mp h with ⟨p, hp, rfl⟩
  exact List.any_eq_true.mpr ⟨p, hp, beq_self_eq_true _⟩

/-- A key absent from the stored node keys makes the membership scan fail. -/
theorem any_fst_eq_false_of_not_mem {l : List (JValue × Attrs)} {a : JValue}
    (h : a ∉ l.map Prod.fst) : l.any (fun p => p.1 == a) = false := by
  rw [← Bool.not_eq_true]
  intro hc
  rcases List.any_eq_true.mp hc with ⟨p, hp, hpe⟩
  exact h (List.mem_map.mpr ⟨p, hp, beq_iff_eq.mp hpe⟩)

/-- An endpoint pair absent from the stored edges makes the edge scan fail. -/
theorem any_pair_eq_false_of_not_mem {l : List (JValue × JValue × Attrs)}
    {u v : JValue} (h : (u, v) ∉ l.map (fun e => (e.1, e.2.1))) :
    l.any (fun e => e.1 == u && e.2.1 == v) = false := by
  rw [← Bool.not_eq_true]
  intro hc
  rcases List.any_eq_true.mp hc with ⟨e, he, hee⟩
  rw [Bool.and_eq_true, beq_iff_eq, beq_iff_eq] at hee
  exact h (List.mem_map.mpr ⟨e, he, by rw [hee.1, hee.2]⟩)

/-- The node loop on dictionaries with fresh, pairwise-distinct, non-null
ids appends exactly one node per entry, in order, with the computed
attribute dictionaries, and leaves the edges untouched. -/
theorem addNodes_spec (ns : List JValue) : ∀ g : NXGraph,
    (∀ nd ∈ ns, nd.isObj = true ∧ jgetPy nd "id" ≠ .null) →
    (ns.map (fun nd => jgetPy nd "id")).Nodup →
    (∀ nd ∈ ns, jgetPy nd "id" ∉ g.nodes.map Prod.fst) →
    addNodes g ns = .ok ⟨g.nodes ++ ns.map (fun nd => (jgetPy nd "id", nodeAttrs nd)),
      g.edges⟩ := by
  induction ns with
  | nil => intro g _ _ _; simp [addNodes]
  | cons nd nds ih =>
      intro g hgood hnodup hfresh
      obtain ⟨hobj, hnn⟩ := hgood nd (by simp)
      cases nd with
      | null => simp [JValue.isObj] at hobj
      | bool b => simp [JValue.isObj] at hobj
      | int n => simp [JValue.isObj] at hobj
      | str s => simp [JValue.isObj] at hobj
      | arr xs => simp [JValue.isObj] at hobj
      | obj fs =>
          have hne : nodeEntry (.obj fs) =
              .ok (jgetPy (.obj fs) "id", nodeAttrs (.obj fs)) := rfl
          have hfresh0 : jgetPy (.obj fs) "id" ∉ g.nodes.map Prod.fst :=
            hfresh _ (by simp)
          have hadd : g.add_node (jgetPy (.obj fs) "id") (nodeAttrs (.obj fs)) =
              .ok ⟨g.nodes ++ [(jgetPy (.obj fs) "id", nodeAttrs (.obj fs))], g.edges⟩ := by
            unfold NXGraph.add_node
            rw [if_neg hnn, if_neg (by simp [any_fst_eq_false_of_not_mem hfresh0])]
          have hnd : jgetPy (.obj fs) "id" ∉ nds.map (fun nd => jgetPy nd "id") :=
            (List.nodup_cons.mp hnodup).1
          have hrec := ih ⟨g.nodes ++ [(jgetPy (.obj fs) "id", nodeAttrs (.obj fs))], g.edges⟩
            (fun nd' h => hgood nd' (List.mem_cons_of_mem _ h))
            (List.nodup_cons.mp hnodup).2
            (by
              intro nd' h
              simp only [List.map_append, List.map_cons, List.map_nil]
              rw [List.mem_append]
              rintro (hl | hr)
              · exact hfresh nd' (List.mem_cons_of_mem _ h) hl
              · have : jgetPy nd' "id" = jgetPy (.obj fs) "id" := by
                  simpa using hr
                exact hnd (this ▸ List.mem_map.mpr ⟨nd', h, rfl⟩))
          simp only [addNodes, hne, except_bind_ok, hadd, hrec]
          simp

/-- The edge loop on dictionaries whose non-null endpoints are existing
node keys and whose endpoint pairs are pairwise-distinct and fresh appends
exactly one edge per entry, in order, with the computed attribute
dictionaries, and leaves the node list untouched. -/
theorem addEdges_spec (es : List JValue) : ∀ g : NXGraph,
    (∀ ed ∈ es, ed.isObj = true ∧
      jgetPy ed "source" ∈ g.nodes.map Prod.fst ∧
      jgetPy ed "target" ∈ g.nodes.map Prod.fst ∧
      jgetPy ed "source" ≠ .null ∧ jgetPy ed "target" ≠ .null) →
    (es.map (fun ed => (jgetPy ed "source", jgetPy ed "target"))).Nodup →
    (∀ ed ∈ es, (jgetPy ed "source", jgetPy ed "target") ∉
      g.edges.map (fun e => (e.1, e.2.1))) →
    addEdges g es = .ok ⟨g.nodes,
      g.edges ++ es.map (fun ed =>
        (jgetPy ed "source", jgetPy ed "target", edgeAttrs ed))⟩ := by
  induction es with
  | nil => intro g _ _ _; simp [addEdges]
  | cons ed eds ih =>
      intro g hgood hnodup hfresh
      obtain ⟨hobj, hsrc, htgt, hsn, htn⟩ := hgood ed (by simp)
      cases ed with
      | null => simp [JValue.isObj] at hobj
      | bool b => simp [JValue.isObj] at hobj
      | int n => simp [JValue.isObj] at hobj
      | str s => simp [JValue.isObj] at hobj
      | arr xs => simp [JValue.isObj] at hobj
      | obj fs =>
          have hee : edgeEntry (.obj fs) =
              .ok (jgetPy (.obj fs) "source", jgetPy (.obj fs) "target",
                edgeAttrs (.obj fs)) := rfl
          have hfresh0 : (jgetPy (.obj fs) "source", jgetPy (.obj fs) "target") ∉
              g.edges.map (fun e => (e.1, e.2.1)) := hfresh _ (by simp)
          have hadd : g.add_edge (jgetPy (.obj fs) "source")
              (jgetPy (.obj fs) "target") (edgeAttrs (.obj fs)) =
              .ok ⟨g.nodes, g.edges ++ [(jgetPy (.obj fs) "source",
                jgetPy (.obj fs) "target", edgeAttrs (.obj fs))]⟩ := by
            unfold NXGraph.add_edge
            rw [if_neg (by simp [hsn, htn])]
            simp only [any_fst_eq_true_of_mem hsrc, any_fst_eq_true_of_mem htgt,
              if_true, any_pair_eq_false_of_not_mem hfresh0, if_false,
              Bool.false_eq_true]
          have hpair : (jgetPy (.obj fs) "source", jgetPy (.obj fs) "target") ∉
              eds.map (fun ed => (jgetPy ed "source", jgetPy ed "target")) :=
            (List.nodup_cons.mp hnodup).1
          have hrec := ih ⟨g.nodes, g.edges ++ [(jgetPy (.obj fs) "source",
              jgetPy (.obj fs) "target", edgeAttrs (.obj fs))]⟩
            (fun ed' h => hgood ed' (List.mem_cons_of_mem _ h))
            (List.nodup_cons.mp hnodup).2
            (by
              intro ed' h
              simp only [List.map_append, List.map_cons, List.map_nil]
              rw [List.mem_append]
              rintro (hl | hr)
              · exact hfresh ed' (List.mem_cons_of_mem _ h) hl
              · have : (jgetPy ed' "source", jgetPy ed' "target") =
                    (jgetPy (.obj fs) "source", jgetPy (.obj fs) "target") := by
                  simpa using hr
                exact hpair (this ▸ List.mem_map.mpr ⟨ed', h, rfl⟩))
          simp only [addEdges, hee, except_bind_ok, hadd, hrec]
          simp

/-- C1 (amended): for a parsed response whose node entries are
dictionaries with pairwise-distinct non-null ids and whose edge entries
are dictionaries with pairwise-distinct endpoint pairs referencing
declared node ids, the builder adds exactly one graph node per `nodes`
element and exactly one graph edge per `edges` element, in order; the id
becomes the node key with `label` and `group` carried unchanged as node
attributes, and the edge `label` is carried unchanged as an edge
attribute — but `confidence_score` is not attached to the graph edge
(only `title` and `label` are). -/
theorem C1_structured_response_to_graph (d : JValue) (ns es : List JValue)
    (hn : jget d "nodes" = some (.arr ns))
    (he : jget d "edges" = some (.arr es))
    (hnode : ∀ nd ∈ ns, nd.isObj = true ∧ jgetPy nd "id" ≠ .null)
    (hids : (ns.map (fun nd => jgetPy nd "id")).Nodup)
    (hedge : ∀ ed ∈ es, ed.isObj = true ∧
      jgetPy ed "source" ∈ ns.map (fun nd => jgetPy nd "id") ∧
      jgetPy ed "target" ∈ ns.map (fun nd => jgetPy nd "id"))
    (hpairs : (es.map (fun ed => (jgetPy ed "source", jgetPy ed "target"))).Nodup) :
    buildGraph d = .ok ⟨ns.map (fun nd => (jgetPy nd "id", nodeAttrs nd)),
      es.map (fun ed => (jgetPy ed "source", jgetPy ed "target", edgeAttrs ed))⟩ ∧
    (∀ nd l, jget nd "label" = some l → (nodeAttrs nd).lookup "label" = some l) ∧
    (∀ nd gr, jget nd "group" = some gr → (nodeAttrs nd).lookup "group" = some gr) ∧
    (∀ ed l, jget ed "label" = some l → (edgeAttrs ed).lookup "label" = some l) ∧
    (∀ ed, (edgeAttrs ed).lookup "confidence_score" = none) := by
  refine ⟨?_, ?_, ?_, ?_, ?_⟩
  · have h1 : jgetD d "nodes" (.arr []) = .arr ns := by simp [jgetD, hn]
    have h2 : jgetD d "edges" (.arr []) = .arr es := by simp [jgetD, he]
    have hAN := addNodes_spec ns NXGraph.empty hnode hids
      (by intro nd h; simp [NXGraph.empty])
    have hkeys : (ns.map (fun nd => (jgetPy nd "id", nodeAttrs nd))).map Prod.fst =
        ns.map (fun nd => jgetPy nd "id") := by
      rw [List.map_map]; rfl
    have hEG := addEdges_spec es
      ⟨ns.map (fun nd => (jgetPy nd "id", nodeAttrs nd)), []⟩
      (by
        intro ed h
        obtain ⟨hobj, hs, ht⟩ := hedge ed h
        refine ⟨hobj, by rw [hkeys]; exact hs, by rw [hkeys]; exact ht, ?_, ?_⟩
        · rcases List.mem_map.mp hs with ⟨nd₀, hnd₀, heq⟩
          rw [← heq]
          exact (hnode nd₀ hnd₀).2
        · rcases List.mem_map.mp ht with ⟨nd₀, hnd₀, heq⟩
          rw [← heq]
          exact (hnode nd₀ hnd₀).2)
      hpairs
      (by intro ed h; simp)
    simp only [buildGraph, h1, h2, except_bind_ok]
    rw [show (NXGraph.empty.nodes ++ ns.map (fun nd => (jgetPy nd "id", nodeAttrs nd))) =
      ns.map (fun nd => (jgetPy nd "id", nodeAttrs nd)) from by simp [NXGraph.empty]] at hAN
    rw [show NXGraph.empty.edges = [] from rfl] at hAN
    rw [hAN, except_bind_ok, hEG]
    simp
  · intro nd l h
    simp [nodeAttrs, List.lookup, jgetD, h]
  · intro nd gr h
    simp [nodeAttrs, List.lookup, jgetD, h]
  · intro ed l h
    simp [edgeAttrs, List.lookup, jgetD, h]
  · intro ed
    simp [edgeAttrs, List.lookup]

/-- C1 witness: the amended theorem applied to the spec's example
response. -/
theorem C1_structured_response_to_graph_witness :
    buildGraph exampleLineageResponse = .ok
      ⟨[(.str "t.a", nodeAttrs (.obj [("id", .str "t.a"), ("label", .str "a"),
          ("group", .str "column")])),
        (.str "t.b", nodeAttrs (.obj [("id", .str "t.b"), ("label", .str "b"),
          ("group", .str "column")]))],
       [(.str "t.a", .str "t.b", edgeAttrs (.obj [("source", .str "t.a"),
          ("target", .str "t.b"), ("label", .str "FLOWS_TO"),
          ("confidence_score", .int 5)]))]⟩ :=
  (C1_structured_response_to_graph exampleLineageResponse
    [.obj [("id", .str "t.a"), ("label", .str "a"), ("group", .str "column")],
     .obj [("id", .str "t.b"), ("label", .str "b"), ("group", .str "column")]]
    [.obj [("source", .str "t.a"), ("target", .str "t.b"),
      ("label", .str "FLOWS_TO"), ("confidence_score", .int 5)]]
    (by decide) (by decide) (by decide) (by decide) (by decide) (by decide)).1

/-- The scalar-value ranges every Lean `Char` (hence every well-formed
Python string character) inhabits. -/
theorem char_toNat_ranges (c : Char) :
    c.toNat < 0xd800 ∨ (0xdfff < c.toNat ∧ c.toNat < 0x110000) := c.valid

/-- Encoding then decoding one hexadecimal digit is the identity. -/
theorem fromHexDigit_hexDigitChar {m : Nat} (h : m < 16) :
    fromHexDigit (hexDigitChar m) = some m := by
  interval_cases m <;> rfl

/-- Reading back a four-digit hexadecimal rendering. -/
theorem parse4Hex_hex4 {n : Nat} (h : n < 0x10000) (rest : List Char) :
    parse4Hex (hex4 n ++ rest) = some (n, rest) := by
  have e1 : fromHexDigit (hexDigitChar (n / 4096 % 16)) = some (n / 4096 % 16) :=
    fromHexDigit_hexDigitChar (by omega)
  have e2 : fromHexDigit (hexDigitChar (n / 256 % 16)) = some (n / 256 % 16) :=
    fromHexDigit_hexDigitChar (by omega)
  have e3 : fromHexDigit (hexDigitChar (n / 16 % 16)) = some (n / 16 % 16) :=
    fromHexDigit_hexDigitChar (by omega)
  have e4 : fromHexDigit (hexDigitChar (n % 16)) = some (n % 16) :=
    fromHexDigit_hexDigitChar (by omega)
  show parse4Hex (hexDigitChar (n / 4096 % 16) :: hexDigitChar (n / 256 % 16) ::
    hexDigitChar (n / 16 % 16) :: hexDigitChar (n % 16) :: rest) = some (n, rest)
  simp only [parse4Hex, e1, e2, e3, e4, Option.some.injEq, Prod.mk.injEq]
  exact ⟨by omega, trivial⟩

/-- Every character escape is nonempty. -/
theorem escapeChar_length_pos (c : Char) : 1 ≤ (escapeChar c).length := by
  unfold escapeChar
  repeat' split
  all_goals simp

/-- Escaping does not shorten a string. -/
theorem escChars_length_ge : ∀ cs : List Char, cs.length ≤ (escChars cs).length := by
  intro cs
  induction cs with
  | nil => simp [escChars]
  | cons c cs ih =>
      show (c :: cs).length ≤ (escapeChar c ++ escChars cs).length
      rw [List.length_append, List.length_cons]
      have := escapeChar_length_pos c
      omega

/-- One `\uXXXX` escape outside the surrogate ranges decodes to the
character with that code, then scanning continues. -/
theorem parseStringAux_u_step {fuel m : Nat} (hm : m < 0x10000)
    (hns : m < 0xd800 ∨ 0xdfff < m) (T : List Char) :
    parseStringAux (fuel + 1) ('\\' :: 'u' :: (hex4 m ++ T)) =
      (parseStringAux fuel T).map (fun p => (Char.ofNat m :: p.1, p.2)) := by
  have hp4 := parse4Hex_hex4 hm T
  have hs1 : ¬(0xd800 ≤ m ∧ m ≤ 0xdbff) := by omega
  have hs2 : ¬(0xdc00 ≤ m ∧ m ≤ 0xdfff) := by omega
  simp [parseStringAux, hp4, hs1, hs2]

/-- A high/low surrogate pair of `\uXXXX` escapes decodes to the combined
astral character, then scanning continues. -/
theorem parseStringAux_surrogate_step {fuel hi lo : Nat}
    (hhi1 : 0xd800 ≤ hi) (hhi2 : hi ≤ 0xdbff) (hlo1 : 0xdc00 ≤ lo) (hlo2 : lo ≤ 0xdfff)
    (T : List Char) :
    parseStringAux (fuel + 1) ('\\' :: 'u' :: (hex4 hi ++ ('\\' :: 'u' :: (hex4 lo ++ T)))) =
      (parseStringAux fuel T).map (fun p =>
        (Char.ofNat (0x10000 + (hi - 0xd800) * 0x400 + (lo - 0xdc00)) :: p.1, p.2)) := by
  have hp4a := parse4Hex_hex4 (show hi < 0x10000 by omega)
    ('\\' :: 'u' :: (hex4 lo ++ T))
  have hp4b := parse4Hex_hex4 (show lo < 0x10000 by omega) T
  simp [parseStringAux, hp4a, hp4b, hhi1, hhi2, hlo1, hlo2]

/-- Scanning the escaped form of a string body up to the closing quote
recovers the original characters, for any fuel above the character count. -/
theorem parseStringAux_escChars : ∀ (cs : List Char) (fuel : Nat) (rest : List Char),
    cs.length < fuel →
    parseStringAux fuel (escChars cs ++ '"' :: rest) = some (cs, rest) := by
  intro cs
  induction cs with
  | nil =>
      intro fuel rest hf
      obtain ⟨f, rfl⟩ : ∃ f, fuel = f + 1 := ⟨fuel - 1, by omega⟩
      show parseStringAux (f + 1) ('"' :: rest) = some ([], rest)
      simp [parseStringAux]
  | cons c cs ih =>
      intro fuel rest hf
      obtain ⟨f, rfl⟩ : ∃ f, fuel = f + 1 := ⟨fuel - 1, by omega⟩
      have hrec := ih f rest (by simpa using Nat.lt_of_succ_lt_succ hf)
      rw [show escChars (c :: cs) = escapeChar c ++ escChars cs from rfl,
        List.append_assoc]
      by_cases h1 : c = '"'
      · subst h1
        show parseStringAux (f + 1) (('\\' :: '"' :: []) ++ escChars cs ++ '"' :: rest) = _
        simp only [List.cons_append, List.nil_append]
        simp [parseStringAux, simpleEscape, hrec]
      · by_cases h2 : c = '\\'
        · subst h2
          show parseStringAux (f + 1) (('\\' :: '\\' :: []) ++ escChars cs ++ '"' :: rest) = _
          simp only [List.cons_append, List.nil_append]
          simp [parseStringAux, simpleEscape, hrec]
        · by_cases h3 : c = '\n'
          · subst h3
            show parseStringAux (f + 1) (('\\' :: 'n' :: []) ++ escChars cs ++ '"' :: rest) = _
            simp only [List.cons_append, List.nil_append]
            simp [parseStringAux, simpleEscape, hrec]
          · by_cases h4 : c = '\t'
            · subst h4
              show parseStringAux (f + 1) (('\\' :: 't' :: []) ++ escChars cs ++ '"' :: rest) = _
              simp only [List.cons_append, List.nil_append]
              simp [parseStringAux, simpleEscape, hrec]
            · by_cases h5 : c = '\r'
              · subst h5
                show parseStringAux (f + 1) (('\\' :: 'r' :: []) ++ escChars cs ++ '"' :: rest) = _
                simp only [List.cons_append, List.nil_append]
                simp [parseStringAux, simpleEscape, hrec]
              · by_cases h6 : c = '\x08'
                · subst h6
                  show parseStringAux (f + 1) (('\\' :: 'b' :: []) ++ escChars cs ++ '"' :: rest) = _
                  simp only [List.cons_append, List.nil_append]
                  simp [parseStringAux, simpleEscape, hrec]
                · by_cases h7 : c = '\x0c'
                  · subst h7
                    show parseStringAux (f + 1) (('\\' :: 'f' :: []) ++ escChars cs ++ '"' :: rest) = _
                    simp only [List.cons_append, List.nil_append]
                    simp [parseStringAux, simpleEscape, hrec]
                  · by_cases h8 : c.toNat < 0x20
                    · have hesc : escapeChar c = '\\' :: 'u' :: hex4 c.toNat := by
                        unfold escapeChar
                        rw [if_neg h1, if_neg h2, if_neg h3, if_neg h4, if_neg h5,
                          if_neg h6, if_neg h7, if_pos h8]
                      rw [hesc]
                      show parseStringAux (f + 1)
                        ('\\' :: 'u' :: (hex4 c.toNat ++ (escChars cs ++ '"' :: rest))) = _
                      rw [parseStringAux_u_step (show c.toNat < 0x10000 by omega)
                        (by omega) _, hrec]
                      simp [Char.ofNat_toNat]
                    · by_cases h9 : c.toNat ≤ 0x7e
                      · have hesc : escapeChar c = [c] := by
                          unfold escapeChar
                          rw [if_neg h1, if_neg h2, if_neg h3, if_neg h4, if_neg h5,
                            if_neg h6, if_neg h7, if_neg h8, if_pos h9]
                        rw [hesc]
                        show parseStringAux (f + 1) (c :: (escChars cs ++ '"' :: rest)) = _
                        unfold parseStringAux
                        rw [if_neg h1, if_neg h2, if_neg h8]
                        simp [hrec]
                      · by_cases h10 : c.toNat ≤ 0xffff
                        · have hval : c.toNat < 0xd800 ∨ 0xdfff < c.toNat := by
                            rcases char_toNat_ranges c with h | h
                            · exact Or.inl h
                            · exact Or.inr h.1
                          have hesc : escapeChar c = '\\' :: 'u' :: hex4 c.toNat := by
                            unfold escapeChar
                            rw [if_neg h1, if_neg h2, if_neg h3, if_neg h4, if_neg h5,
                              if_neg h6, if_neg h7, if_neg h8, if_neg h9, if_pos h10]
                          rw [hesc]
                          show parseStringAux (f + 1)
                            ('\\' :: 'u' :: (hex4 c.toNat ++ (escChars cs ++ '"' :: rest))) = _
                          rw [parseStringAux_u_step (show c.toNat < 0x10000 by omega)
                            (by omega) _, hrec]
                          simp [Char.ofNat_toNat]
                        · have hlt : c.toNat < 0x110000 := by
                            rcases char_toNat_ranges c with h | h
                            · omega
                            · exact h.2
                          have hesc : escapeChar c =
                              '\\' :: 'u' :: hex4 (0xd800 + (c.toNat - 0x10000) / 0x400) ++
                                ('\\' :: 'u' :: hex4 (0xdc00 + (c.toNat - 0x10000) % 0x400)) := by
                            unfold escapeChar
                            rw [if_neg h1, if_neg h2, if_neg h3, if_neg h4, if_neg h5,
                              if_neg h6, if_neg h7, if_neg h8, if_neg h9, if_neg h10]
                          rw [hesc]
                          have hhd : (c.toNat - 0x10000) / 0x400 < 0x400 := by omega
                          have hld : (c.toNat - 0x10000) % 0x400 < 0x400 :=
                            Nat.mod_lt _ (by omega)
                          show parseStringAux (f + 1)
                            ('\\' :: 'u' :: (hex4 (0xd800 + (c.toNat - 0x10000) / 0x400) ++
                              ('\\' :: 'u' :: (hex4 (0xdc00 + (c.toNat - 0x10000) % 0x400) ++
                                (escChars cs ++ '"' :: rest))))) = _
                          rw [parseStringAux_surrogate_step
                            (show 0xd800 ≤ 0xd800 + (c.toNat - 0x10000) / 0x400 by omega)
                            (show 0xd800 + (c.toNat - 0x10000) / 0x400 ≤ 0xdbff by omega)
                            (show 0xdc00 ≤ 0xdc00 + (c.toNat - 0x10000) % 0x400 by omega)
                            (show 0xdc00 + (c.toNat - 0x10000) % 0x400 ≤ 0xdfff by omega),
                            hrec]
                          have hcomb : 0x10000 +
                              (0xd800 + (c.toNat - 0x10000) / 0x400 - 0xd800) * 0x400 +
                              (0xdc00 + (c.toNat - 0x10000) % 0x400 - 0xdc00) = c.toNat := by
                            omega
                          simp only [hcomb, Char.ofNat_toNat]
                          simp

/-- The digit characters produced for `n < 10` carry their value. -/
theorem digitVal_digitChar10 {n : Nat} (h : n < 10) :
    digitVal (digitChar10 n) = n := by
  interval_cases n <;> rfl

/-- Decimal digit strings are nonempty, all-digit, and evaluate back to
the rendered number (for any sufficient fuel). -/
theorem natDigitsAux_spec : ∀ fuel : Nat, ∀ n : Nat, n < fuel →
    natDigitsAux fuel n ≠ [] ∧ (∀ c ∈ natDigitsAux fuel n, c.isDigit = true) ∧
      digitsToNat (natDigitsAux fuel n) = n := by
  intro fuel
  induction fuel with
  | zero => intro n h; omega
  | succ f ih =>
      intro n h
      by_cases h10 : n < 10
      · refine ⟨by simp [natDigitsAux, h10], ?_, ?_⟩
        · intro c hc
          simp [natDigitsAux, h10] at hc
          subst hc
          interval_cases n <;> rfl
        · simp [natDigitsAux, h10, digitsToNat, digitVal_digitChar10 h10]
      · have hn : n / 10 < f := by omega
        obtain ⟨hne, hdig, hval⟩ := ih (n / 10) hn
        refine ⟨by simp [natDigitsAux, h10], ?_, ?_⟩
        · intro c hc
          simp only [natDigitsAux, if_neg h10, List.mem_append, List.mem_singleton] at hc
          rcases hc with hc | hc
          · exact hdig c hc
          · subst hc
            have : n % 10 < 10 := Nat.mod_lt _ (by omega)
            interval_cases hmod : n % 10 <;> rfl
        · show digitsToNat (natDigitsAux (f + 1) n) = n
          simp only [natDigitsAux, if_neg h10]
          unfold digitsToNat
          rw [List.foldl_append]
          have : n % 10 < 10 := Nat.mod_lt _ (by omega)
          show List.foldl _ (digitsToNat (natDigitsAux f (n / 10))) _ = n
          rw [hval]
          simp [digitVal_digitChar10 this]
          omega

/-- Splitting a digit run followed by a non-digit suffix. -/
theorem span_digits (ds rest : List Char) (hds : ∀ c ∈ ds, c.isDigit = true)
    (hrest : nonDigitHead rest) :
    List.span Char.isDigit (ds ++ rest) = (ds, rest) := by
  induction ds with
  | nil =>
      cases rest with
      | nil => rfl
      | cons r rs =>
          have := hrest r rfl
          simp [List.span, List.span.loop, this]
  | cons d ds ih =>
      have hd := hds d (by simp)
      have ihv := ih (fun c hc => hds c (by simp [hc]))
      rw [List.span_eq_take_drop] at ihv ⊢
      simp only [Prod.mk.injEq] at ihv
      show (List.takeWhile Char.isDigit (d :: (ds ++ rest)),
        List.dropWhile Char.isDigit (d :: (ds ++ rest))) = (d :: ds, rest)
      rw [List.takeWhile_cons, List.dropWhile_cons]
      simp [hd, ihv.1, ihv.2]

/-- Reading back a rendered natural number before a non-digit suffix. -/
theorem parseNat_natDigits (n : Nat) (rest : List Char) (hrest : nonDigitHead rest) :
    parseNat (natDigits n ++ rest) = some (n, rest) := by
  obtain ⟨hne, hdig, hval⟩ := natDigitsAux_spec (n + 1) n (by omega)
  unfold parseNat
  rw [show natDigits n = natDigitsAux (n + 1) n from rfl,
    span_digits _ _ hdig hrest]
  simp [List.isEmpty_iff, hne, hval]

/-- Reading back a rendered integer before a non-digit suffix. -/
theorem parseNumber_intDigits (n : Int) (rest : List Char) (hrest : nonDigitHead rest) :
    parseNumber (intDigits n ++ rest) = some (.int n, rest) := by
  obtain ⟨hne, hdig, _⟩ := natDigitsAux_spec (n.toNat + 1) n.toNat (by omega)
  by_cases hneg : n < 0
  · unfold intDigits
    rw [if_pos hneg]
    show parseNumber ('-' :: (natDigits n.natAbs ++ rest)) = _
    unfold parseNumber
    rw [if_pos (show ('-' :: (natDigits n.natAbs ++ rest)).head? = some '-' from rfl)]
    show (parseNat (natDigits n.natAbs ++ rest)).map _ = _
    rw [parseNat_natDigits _ _ hrest]
    simp only [Option.map_some']
    have : (-(n.natAbs : Int)) = n := by omega
    rw [this]
  · unfold intDigits
    rw [if_neg hneg]
    obtain ⟨d, ds, hcons⟩ : ∃ d ds, natDigits n.toNat = d :: ds := by
      cases hnd : natDigits n.toNat with
      | nil => exact absurd hnd hne
      | cons d ds => exact ⟨d, ds, rfl⟩
    have hd : d.isDigit = true := hdig d (by
      have hcons' : natDigitsAux (n.toNat + 1) n.toNat = d :: ds := hcons
      rw [hcons']
      simp)
    have hdne : d ≠ '-' := by
      rintro rfl
      simp [Char.isDigit] at hd
    rw [hcons]
    show parseNumber (d :: (ds ++ rest)) = _
    unfold parseNumber
    rw [if_neg (by simp [hdne])]
    show (parseNat ((d :: ds) ++ rest)).map _ = _
    rw [← hcons, parseNat_natDigits _ _ hrest]
    simp only [Option.map_some']
    have : ((n.toNat : Int)) = n := by omega
    rw [this]

/-- Skipping whitespace passes over an all-whitespace prefix. -/
theorem skipWs_append {ws : List Char} (h : wsOnly ws) (t : List Char) :
    skipWs (ws ++ t) = skipWs t := by
  induction ws with
  | nil => rfl
  | cons c cs ih =>
      show skipWs (c :: (cs ++ t)) = skipWs t
      rw [show skipWs (c :: (cs ++ t)) = skipWs (cs ++ t) from by
        simp [skipWs, h c (by simp)]]
      exact ih (fun c' hc' => h c' (by simp [hc']))

/-- Skipping whitespace stops at a non-whitespace head. -/
theorem skipWs_not_ws {c : Char} (h : isJsonWs c = false) (t : List Char) :
    skipWs (c :: t) = c :: t := by
  simp [skipWs, h]

/-- Indentation runs are whitespace. -/
theorem wsOnly_nlIndent (i lvl : Nat) : wsOnly (nlIndent i lvl) := by
  intro c hc
  simp only [nlIndent, List.mem_cons] at hc
  rcases hc with rfl | hc
  · rfl
  · rw [List.eq_of_mem_replicate hc]
    rfl

/-- The pre-first-item padding is whitespace. -/
theorem wsOnly_firstPad (ind : Option Nat) (lvl : Nat) : wsOnly (firstPad ind lvl) := by
  cases ind with
  | none => intro c hc; simp [firstPad] at hc
  | some i => exact wsOnly_nlIndent i (lvl + 1)

/-- The pre-closing-bracket padding is whitespace. -/
theorem wsOnly_closePad (ind : Option Nat) (lvl : Nat) : wsOnly (closePad ind lvl) := by
  cases ind with
  | none => intro c hc; simp [closePad] at hc
  | some i => exact wsOnly_nlIndent i lvl

/-- The item separator is a comma followed by whitespace. -/
theorem itemSep_shape (ind : Option Nat) (lvl : Nat) :
    ∃ t, itemSep ind lvl = ',' :: t ∧ wsOnly t := by
  cases ind with
  | none =>
      refine ⟨[' '], rfl, ?_⟩
      intro c hc
      simp only [List.mem_singleton] at hc
      subst hc
      rfl
  | some i => exact ⟨nlIndent i (lvl + 1), rfl, wsOnly_nlIndent i (lvl + 1)⟩

/-- A decimal digit character is none of the parser's structural
characters. -/
theorem isDigit_facts {c : Char} (h : c.isDigit = true) :
    isJsonWs c = false ∧ c ≠ ']' ∧ c ≠ '\x7d' ∧ c ≠ '-' ∧ c ≠ '"' ∧ c ≠ '[' ∧
      c ≠ '\x7b' ∧ c ≠ 'n' ∧ c ≠ 't' ∧ c ≠ 'f' := by
  refine ⟨?_, ?_, ?_, ?_, ?_, ?_, ?_, ?_, ?_, ?_⟩
  · by_contra hw
    rw [Bool.not_eq_false] at hw
    have hcases : c = ' ' ∨ c = '\t' ∨ c = '\n' ∨ c = '\r' := by
      simpa [isJsonWs, or_assoc] using hw
    rcases hcases with rfl | rfl | rfl | rfl <;> simp [Char.isDigit] at h
  all_goals rintro rfl <;> simp [Char.isDigit] at h

/-- Every dumped value starts with a non-whitespace character that is not
a closing bracket. -/
theorem dumpVal_head (ind : Option Nat) (lvl : Nat) (v : JValue) :
    ∃ c t, dumpVal ind lvl v = c :: t ∧ isJsonWs c = false ∧ c ≠ ']' ∧ c ≠ '\x7d' := by
  cases v with
  | null => exact ⟨'n', _, rfl, by decide, by decide, by decide⟩
  | bool b =>
      cases b with
      | true => refine ⟨'t', _, rfl, by decide, by decide, ?_⟩; decide
      | false => exact ⟨'f', _, rfl, by decide, by decide, by decide⟩
  | int n =>
      by_cases hn : n < 0
      · refine ⟨'-', natDigits n.natAbs, ?_, by decide, by decide, by decide⟩
        show intDigits n = _
        rw [intDigits, if_pos hn]
      · obtain ⟨hne, hdig, _⟩ := natDigitsAux_spec (n.toNat + 1) n.toNat (by omega)
        obtain ⟨d, ds, hcons⟩ : ∃ d ds, natDigitsAux (n.toNat + 1) n.toNat = d :: ds := by
          cases hnd : natDigitsAux (n.toNat + 1) n.toNat with
          | nil => exact absurd hnd hne
          | cons d ds => exact ⟨d, ds, rfl⟩
        have hd : d.isDigit = true := hdig d (by rw [hcons]; simp)
        obtain ⟨f1, f2, f3, _⟩ := isDigit_facts hd
        refine ⟨d, ds, ?_, f1, f2, f3⟩
        show intDigits n = _
        rw [intDigits, if_neg hn]
        exact hcons
  | str s => exact ⟨'"', _, rfl, by decide, by decide, by decide⟩
  | arr xs =>
      cases xs with
      | nil => exact ⟨'[', _, rfl, by decide, by decide, by decide⟩
      | cons x xs => exact ⟨'[', _, rfl, by decide, by decide, by decide⟩
  | obj fs =>
      cases fs with
      | nil => exact ⟨'\x7b', _, rfl, by decide, by decide, by decide⟩
      | cons f fs =>
          obtain ⟨k, v⟩ := f
          exact ⟨'\x7b', _, rfl, by decide, by decide, by decide⟩

/-- Whitespace before a dumped value is transparent to `skipWs`. -/
theorem skipWs_dump (ind : Option Nat) (lvl : Nat) (v : JValue) (t : List Char) :
    skipWs (dumpVal ind lvl v ++ t) = dumpVal ind lvl v ++ t := by
  obtain ⟨c, cs, hc, hws, _, _⟩ := dumpVal_head ind lvl v
  rw [hc]
  show skipWs (c :: (cs ++ t)) = _
  rw [skipWs_not_ws hws]
  exact (List.cons_append c cs t).symm

/-- Folding `dict`-insertion over fresh keys is plain concatenation. -/
theorem dedupPairs_aux : ∀ (fs acc : List (String × JValue)),
    jwfObj fs = true → (∀ p ∈ fs, acc.any (fun q => q.1 == p.1) = false) →
    List.foldl (fun acc p => pyDictInsert acc p.1 p.2) acc fs = acc ++ fs := by
  intro fs
  induction fs with
  | nil => intro acc _ _; simp
  | cons p fs ih =>
      intro acc hwf hfresh
      obtain ⟨k, v⟩ := p
      have hw : (fs.any (fun q => q.1 == k)) = false ∧ jwf v = true ∧ jwfObj fs = true := by
        have := hwf
        simp only [jwfObj, Bool.and_eq_true, Bool.not_eq_true'] at this
        exact ⟨this.1.1, this.1.2, this.2⟩
      have hins : pyDictInsert acc k v = acc ++ [(k, v)] := by
        unfold pyDictInsert
        rw [if_neg (by simp [hfresh (k, v) (by simp)])]
      show List.foldl _ (pyDictInsert acc k v) fs = acc ++ (k, v) :: fs
      rw [hins, ih (acc ++ [(k, v)]) hw.2.2]
      · simp
      · intro q hq
        rw [List.any_append]
        have h1 : acc.any (fun r => r.1 == q.1) = false :=
          hfresh q (by simp [hq])
        have h2 : (q.1 == k) = false := by
          by_contra hqc
          rw [Bool.not_eq_false, beq_iff_eq] at hqc
          have hany : fs.any (fun r => r.1 == k) = true :=
            List.any_eq_true.mpr ⟨q, hq, by rw [hqc]; exact beq_self_eq_true k⟩
          rw [hany] at hw
          simp at hw
        have h2' : (k == q.1) = false := by
          by_contra hkc
          rw [Bool.not_eq_false, beq_iff_eq] at hkc
          rw [hkc] at h2
          simp at h2
        simp [h1, h2']

/-- A parsed pair list with distinct keys survives `dict` construction. -/
theorem dedupPairs_id {fs : List (String × JValue)} (h : jwfObj fs = true) :
    dedupPairs fs = fs := by
  have := dedupPairs_aux fs [] h (by intro p _; rfl)
  simpa [dedupPairs] using this

/-- The value scanner ignores leading whitespace. -/
theorem parseValue_ws {ws : List Char} (h : wsOnly ws) (fuel : Nat) (t : List Char) :
    parseValue fuel (ws ++ t) = parseValue fuel t := by
  cases fuel with
  | zero => rfl
  | succ f =>
      show parseValue (f + 1) (ws ++ t) = parseValue (f + 1) t
      unfold parseValue
      rw [skipWs_append h]

/-- The suffix following a value inside a dumped container never starts
with a digit: closing padding then a bracket. -/
theorem nonDigitHead_closePad (ind : Option Nat) (lvl : Nat) {c : Char}
    (hc : c.isDigit = false) (rest : List Char) :
    nonDigitHead (closePad ind lvl ++ c :: rest) := by
  cases ind with
  | none =>
      intro c' hc'
      simp only [closePad, List.nil_append, List.head?_cons, Option.some.injEq] at hc'
      rw [← hc']
      exact hc
  | some i =>
      intro c' hc'
      simp only [closePad, nlIndent, List.cons_append, List.head?_cons,
        Option.some.injEq] at hc'
      rw [← hc']
      rfl

/-- The remaining-array-items text never starts with a digit. -/
theorem nonDigitHead_arrTail (ind : Option Nat) (lvl : Nat) (xs : List JValue)
    {Z : List Char} (hZ : nonDigitHead Z) :
    nonDigitHead (dumpArrTail ind lvl xs ++ Z) := by
  cases xs with
  | nil => exact hZ
  | cons y ys =>
      obtain ⟨t, ht, _⟩ := itemSep_shape ind lvl
      intro c' hc'
      rw [show dumpArrTail ind lvl (y :: ys) =
        itemSep ind lvl ++ dumpVal ind (lvl + 1) y ++ dumpArrTail ind lvl ys from rfl,
        ht] at hc'
      simp only [List.cons_append, List.append_assoc, List.head?_cons,
        Option.some.injEq] at hc'
      rw [← hc']
      rfl

/-- The remaining-object-items text never starts with a digit. -/
theorem nonDigitHead_objTail (ind : Option Nat) (lvl : Nat)
    (fs : List (String × JValue)) {Z : List Char} (hZ : nonDigitHead Z) :
    nonDigitHead (dumpObjTail ind lvl fs ++ Z) := by
  cases fs with
  | nil => exact hZ
  | cons f fs =>
      obtain ⟨k, v⟩ := f
      obtain ⟨t, ht, _⟩ := itemSep_shape ind lvl
      intro c' hc'
      rw [show dumpObjTail ind lvl ((k, v) :: fs) =
        itemSep ind lvl ++ dumpStr k ++ ':' :: ' ' :: dumpVal ind (lvl + 1) v ++
          dumpObjTail ind lvl fs from rfl, ht] at hc'
      simp only [List.cons_append, List.append_assoc, List.head?_cons,
        Option.some.injEq] at hc'
      rw [← hc']
      rfl

/-- Scanner dispatch: `null`. -/
theorem parseValue_null_head (f : Nat) (rest : List Char) :
    parseValue (f + 1) ('n' :: 'u' :: 'l' :: 'l' :: rest) = some (.null, rest) := by
  unfold parseValue
  rw [skipWs_not_ws (by decide)]
  simp

/-- Scanner dispatch: `true`. -/
theorem parseValue_true_head (f : Nat) (rest : List Char) :
    parseValue (f + 1) ('t' :: 'r' :: 'u' :: 'e' :: rest) = some (.bool true, rest) := by
  unfold parseValue
  rw [skipWs_not_ws (by decide)]
  simp

/-- Scanner dispatch: `false`. -/
theorem parseValue_false_head (f : Nat) (rest : List Char) :
    parseValue (f + 1) ('f' :: 'a' :: 'l' :: 's' :: 'e' :: rest) = some (.bool false, rest) := by
  unfold parseValue
  rw [skipWs_not_ws (by decide)]
  simp

/-- Scanner dispatch: a string literal. -/
theorem parseValue_quote_head (f : Nat) (T : List Char) :
    parseValue (f + 1) ('"' :: T) =
      (parseStringAux (T.length + 1) T).map (fun p => (.str ⟨p.1⟩, p.2)) := by
  unfold parseValue
  rw [skipWs_not_ws (by decide)]
  simp

/-- Scanner dispatch: an array opener. -/
theorem parseValue_lbrack_head (f : Nat) (T : List Char) :
    parseValue (f + 1) ('[' :: T) =
      (if (skipWs T).head? = some ']' then some (.arr [], (skipWs T).tail)
       else (parseElems f (skipWs T)).map (fun p => (.arr p.1, p.2))) := by
  unfold parseValue
  rw [skipWs_not_ws (by decide)]
  simp

/-- Scanner dispatch: an object opener. -/
theorem parseValue_lbrace_head (f : Nat) (T : List Char) :
    parseValue (f + 1) ('\x7b' :: T) =
      (if (skipWs T).head? = some '\x7d' then some (.obj [], (skipWs T).tail)
       else (parseFields f (skipWs T)).map (fun p => (.obj (dedupPairs p.1), p.2))) := by
  unfold parseValue
  rw [skipWs_not_ws (by decide)]
  simp

/-- Scanner dispatch: a digit starts a number. -/
theorem parseValue_digit_head {c : Char} (hc : c.isDigit = true) (f : Nat)
    (T : List Char) :
    parseValue (f + 1) (c :: T) = parseNumber (c :: T) := by
  obtain ⟨f1, _, _, _, f5, f6, f7, f8, f9, f10⟩ := isDigit_facts hc
  unfold parseValue
  rw [skipWs_not_ws f1]
  simp [f5, f6, f7, f8, f9, f10]

/-- Scanner dispatch: a minus sign starts a number. -/
theorem parseValue_minus_head (f : Nat) (T : List Char) :
    parseValue (f + 1) ('-' :: T) = parseNumber ('-' :: T) := by
  unfold parseValue
  rw [skipWs_not_ws (by decide)]
  simp

/-- One unfolding of the array-items loop. -/
theorem parseElems_succ (f : Nat) (cs : List Char) :
    parseElems (f + 1) cs =
      (parseValue f cs).bind (fun vr =>
        if (skipWs vr.2).head? = some ',' then
          (parseElems f (skipWs vr.2).tail).map (fun p => (vr.1 :: p.1, p.2))
        else if (skipWs vr.2).head? = some ']' then some ([vr.1], (skipWs vr.2).tail)
        else none) := rfl

/-- One unfolding of the object-items loop. -/
theorem parseFields_succ (f : Nat) (cs : List Char) :
    parseFields (f + 1) cs =
      (if (skipWs cs).head? = some '"' then
        (parseStringAux ((skipWs cs).tail.length + 1) (skipWs cs).tail).bind (fun kr =>
          if (skipWs kr.2).head? = some ':' then
            (parseValue f (skipWs kr.2).tail).bind (fun vr =>
              if (skipWs vr.2).head? = some ',' then
                (parseFields f (skipWs vr.2).tail).map (fun p => ((⟨kr.1⟩, vr.1) :: p.1, p.2))
              else if (skipWs vr.2).head? = some '\x7d' then
                some ([(⟨kr.1⟩, vr.1)], (skipWs vr.2).tail)
              else none)
          else none)
      else none) := rfl

/-- Bind of a present optional value. -/
theorem option_some_bind {α β : Type} (a : α) (f : α → Option β) :
    (Option.some a).bind f = f a := rfl

/-- A list always has positive size. -/
theorem list_sizeOf_pos {α : Type} [SizeOf α] (xs : List α) : 0 < sizeOf xs := by
  cases xs <;> simp_arith

/-- Conditional on a just-revealed head character. -/
theorem ite_head_cons {α : Type} {c : Char} {t : List Char} (A B : α) :
    (if (c :: t).head? = some c then A else B) = A := by simp

/-- A single space is whitespace. -/
theorem wsOnly_space : wsOnly [' '] := by
  intro c hc
  simp only [List.mem_singleton] at hc
  subst hc
  rfl

mutual

/-- Scanning the dump of a well-formed value before a non-digit suffix
recovers the value exactly, for any fuel at or above its `jfuel` bound. -/
theorem rtVal : ∀ (v : JValue) (ind : Option Nat) (lvl fuel : Nat) (rest : List Char),
    jwf v = true → jfuel v ≤ fuel → nonDigitHead rest →
    parseValue fuel (dumpVal ind lvl v ++ rest) = some (v, rest)
  | .null, ind, lvl, fuel, rest => fun _ hf hr => by
      have h1 : 1 ≤ fuel := hf
      obtain ⟨f, rfl⟩ : ∃ f, fuel = f + 1 := ⟨fuel - 1, by omega⟩
      exact parseValue_null_head f rest
  | .bool true, ind, lvl, fuel, rest => fun _ hf hr => by
      have h1 : 1 ≤ fuel := hf
      obtain ⟨f, rfl⟩ : ∃ f, fuel = f + 1 := ⟨fuel - 1, by omega⟩
      exact parseValue_true_head f rest
  | .bool false, ind, lvl, fuel, rest => fun _ hf hr => by
      have h1 : 1 ≤ fuel := hf
      obtain ⟨f, rfl⟩ : ∃ f, fuel = f + 1 := ⟨fuel - 1, by omega⟩
      exact parseValue_false_head f rest
  | .int n, ind, lvl, fuel, rest => fun _ hf hr => by
      have h1 : 1 ≤ fuel := hf
      obtain ⟨f, rfl⟩ : ∃ f, fuel = f + 1 := ⟨fuel - 1, by omega⟩
      have hnum := parseNumber_intDigits n rest hr
      by_cases hn : n < 0
      · have hid : dumpVal ind lvl (.int n) ++ rest =
            '-' :: (natDigits n.natAbs ++ rest) := by
          show intDigits n ++ rest = _
          rw [intDigits, if_pos hn, List.cons_append]
        rw [hid, parseValue_minus_head]
        rw [show ('-' :: (natDigits n.natAbs ++ rest) : List Char) =
          intDigits n ++ rest from by rw [intDigits, if_pos hn, List.cons_append]]
        exact hnum
      · obtain ⟨hne, hdig, _⟩ := natDigitsAux_spec (n.toNat + 1) n.toNat (by omega)
        obtain ⟨d, ds, hcons⟩ : ∃ d ds, natDigitsAux (n.toNat + 1) n.toNat = d :: ds := by
          cases hnd : natDigitsAux (n.toNat + 1) n.toNat with
          | nil => exact absurd hnd hne
          | cons d ds => exact ⟨d, ds, rfl⟩
        have hd : d.isDigit = true := hdig d (by rw [hcons]; simp)
        have hid : dumpVal ind lvl (.int n) ++ rest = d :: (ds ++ rest) := by
          show intDigits n ++ rest = _
          rw [intDigits, if_neg hn, show natDigits n.toNat = d :: ds from hcons,
            List.cons_append]
        rw [hid, parseValue_digit_head hd]
        rw [show (d :: (ds ++ rest) : List Char) = intDigits n ++ rest from by
          rw [intDigits, if_neg hn, show natDigits n.toNat = d :: ds from hcons,
            List.cons_append]]
        exact hnum
  | .str s, ind, lvl, fuel, rest => fun _ hf hr => by
      have h1 : 1 ≤ fuel := hf
      obtain ⟨f, rfl⟩ : ∃ f, fuel = f + 1 := ⟨fuel - 1, by omega⟩
      rw [show dumpVal ind lvl (.str s) ++ rest =
        '"' :: (escChars s.data ++ ('"' :: rest)) from by
          simp [dumpVal, dumpStr, List.append_assoc]]
      rw [parseValue_quote_head]
      rw [parseStringAux_escChars s.data ((escChars s.data ++ ('"' :: rest)).length + 1)
        rest (by
          have := escChars_length_ge s.data
          simp only [List.length_append, List.length_cons]
          omega)]
      rfl
  | .arr [], ind, lvl, fuel, rest => fun _ hf hr => by
      have h1 : 1 + 1 ≤ fuel := hf
      obtain ⟨f, rfl⟩ : ∃ f, fuel = f + 1 := ⟨fuel - 1, by omega⟩
      rw [show dumpVal ind lvl (.arr []) ++ rest = '[' :: (']' :: rest) from rfl]
      rw [parseValue_lbrack_head]
      rw [skipWs_not_ws (by decide)]
      simp
  | .arr (x :: xs), ind, lvl, fuel, rest => fun hw hf hr => by
      have hw' : (jwf x && jwfArr xs) = true := hw
      rw [Bool.and_eq_true] at hw'
      have hf1 : 1 + (1 + jfuel x + jfuelArr xs) ≤ fuel := hf
      obtain ⟨f, rfl⟩ : ∃ f, fuel = f + 1 := ⟨fuel - 1, by omega⟩
      rw [show dumpVal ind lvl (.arr (x :: xs)) ++ rest =
        '[' :: (firstPad ind lvl ++ (dumpVal ind (lvl + 1) x ++ (dumpArrTail ind lvl xs ++
          (closePad ind lvl ++ (']' :: rest))))) from by
          simp [dumpVal, List.append_assoc]]
      rw [parseValue_lbrack_head]
      have hskip : skipWs (firstPad ind lvl ++ (dumpVal ind (lvl + 1) x ++
          (dumpArrTail ind lvl xs ++ (closePad ind lvl ++ (']' :: rest))))) =
          dumpVal ind (lvl + 1) x ++ (dumpArrTail ind lvl xs ++
            (closePad ind lvl ++ (']' :: rest))) := by
        rw [skipWs_append (wsOnly_firstPad ind lvl), skipWs_dump]
      rw [hskip]
      obtain ⟨c, t, hct, hcw, hcb, _⟩ := dumpVal_head ind (lvl + 1) x
      have hhead : (dumpVal ind (lvl + 1) x ++ (dumpArrTail ind lvl xs ++
          (closePad ind lvl ++ (']' :: rest)))).head? = some c := by
        rw [hct]
        rfl
      rw [if_neg (by rw [hhead]; simp [hcb])]
      rw [show parseElems f (dumpVal ind (lvl + 1) x ++ (dumpArrTail ind lvl xs ++
          (closePad ind lvl ++ (']' :: rest)))) = some (x :: xs, rest) from
        rtElems x xs ind lvl f [] rest hw'.1 hw'.2 (by
          show 1 + jfuel x + jfuelArr xs ≤ f
          omega) (by intro c' hc'; simp at hc') hr]
      rfl
  | .obj [], ind, lvl, fuel, rest => fun _ hf hr => by
      have h1 : 1 + 1 ≤ fuel := hf
      obtain ⟨f, rfl⟩ : ∃ f, fuel = f + 1 := ⟨fuel - 1, by omega⟩
      rw [show dumpVal ind lvl (.obj []) ++ rest = '\x7b' :: ('\x7d' :: rest) from rfl]
      rw [parseValue_lbrace_head]
      rw [skipWs_not_ws (by decide)]
      simp
  | .obj ((k, v) :: fs), ind, lvl, fuel, rest => fun hw hf hr => by
      have hw0 : jwfObj ((k, v) :: fs) = true := hw
      have hw' : ((!(fs.any (fun p => p.1 == k)) && jwf v) && jwfObj fs) = true := hw
      rw [Bool.and_eq_true, Bool.and_eq_true] at hw'
      have hf1 : 1 + (1 + jfuel v + jfuelObj fs) ≤ fuel := hf
      obtain ⟨f, rfl⟩ : ∃ f, fuel = f + 1 := ⟨fuel - 1, by omega⟩
      rw [show dumpVal ind lvl (.obj ((k, v) :: fs)) ++ rest =
        '\x7b' :: (firstPad ind lvl ++ (dumpStr k ++ (':' :: ' ' ::
          (dumpVal ind (lvl + 1) v ++ (dumpObjTail ind lvl fs ++
            (closePad ind lvl ++ ('\x7d' :: rest))))))) from by
          simp [dumpVal, List.append_assoc]]
      rw [parseValue_lbrace_head]
      have hskip : skipWs (firstPad ind lvl ++ (dumpStr k ++ (':' :: ' ' ::
          (dumpVal ind (lvl + 1) v ++ (dumpObjTail ind lvl fs ++
            (closePad ind lvl ++ ('\x7d' :: rest))))))) =
          dumpStr k ++ (':' :: ' ' :: (dumpVal ind (lvl + 1) v ++
            (dumpObjTail ind lvl fs ++ (closePad ind lvl ++ ('\x7d' :: rest))))) := by
        rw [skipWs_append (wsOnly_firstPad ind lvl)]
        rw [show dumpStr k ++ (':' :: ' ' :: (dumpVal ind (lvl + 1) v ++
          (dumpObjTail ind lvl fs ++ (closePad ind lvl ++ ('\x7d' :: rest))))) =
          '"' :: (escChars k.data ++ (['"'] ++ (':' :: ' ' :: (dumpVal ind (lvl + 1) v ++
            (dumpObjTail ind lvl fs ++ (closePad ind lvl ++ ('\x7d' :: rest))))))) from by
          simp [dumpStr, List.append_assoc]]
        rw [skipWs_not_ws (by decide)]
      rw [hskip]
      have hhead : (dumpStr k ++ (':' :: ' ' :: (dumpVal ind (lvl + 1) v ++
          (dumpObjTail ind lvl fs ++ (closePad ind lvl ++ ('\x7d' :: rest)))))).head? =
          some '"' := rfl
      rw [if_neg (by rw [hhead]; simp)]
      rw [show parseFields f (dumpStr k ++ (':' :: ' ' :: (dumpVal ind (lvl + 1) v ++
          (dumpObjTail ind lvl fs ++ (closePad ind lvl ++ ('\x7d' :: rest)))))) =
          some ((k, v) :: fs, rest) from
        rtFields k v fs ind lvl f [] rest hw'.1.2 hw'.2 (by
          show 1 + jfuel v + jfuelObj fs ≤ f
          omega) (by intro c' hc'; simp at hc') hr]
      have hded : dedupPairs ((k, v) :: fs) = (k, v) :: fs := dedupPairs_id hw0
      show some (JValue.obj (dedupPairs ((k, v) :: fs)), rest) =
        some (JValue.obj ((k, v) :: fs), rest)
      rw [hded]
termination_by v ind lvl fuel rest => sizeOf v
decreasing_by all_goals simp_wf <;> omega

/-- Scanning one dumped array item plus the remaining items, closing
padding and bracket yields the item list. -/
theorem rtElems : ∀ (x : JValue) (xs : List JValue) (ind : Option Nat) (lvl fuel : Nat)
    (pad rest : List Char),
    jwf x = true → jwfArr xs = true → jfuelArr (x :: xs) ≤ fuel → wsOnly pad →
    nonDigitHead rest →
    parseElems fuel (pad ++ (dumpVal ind (lvl + 1) x ++ (dumpArrTail ind lvl xs ++
      (closePad ind lvl ++ (']' :: rest))))) = some (x :: xs, rest)
  | x, xs, ind, lvl, fuel, pad, rest => fun hwx hwxs hfu hpad hr => by
      have hf1 : 1 + jfuel x + jfuelArr xs ≤ fuel := hfu
      obtain ⟨f, rfl⟩ : ∃ f, fuel = f + 1 := ⟨fuel - 1, by omega⟩
      rw [parseElems_succ]
      rw [show parseValue f (pad ++ (dumpVal ind (lvl + 1) x ++ (dumpArrTail ind lvl xs ++
          (closePad ind lvl ++ (']' :: rest))))) =
          some (x, dumpArrTail ind lvl xs ++ (closePad ind lvl ++ (']' :: rest))) from by
        rw [parseValue_ws hpad]
        exact rtVal x ind (lvl + 1) f _ hwx (by omega)
          (nonDigitHead_arrTail ind lvl xs (nonDigitHead_closePad ind lvl (by decide) rest))]
      rw [option_some_bind]
      cases xs with
      | nil =>
          have hsk : skipWs (dumpArrTail ind lvl ([] : List JValue) ++
              (closePad ind lvl ++ (']' :: rest))) = ']' :: rest := by
            show skipWs ([] ++ (closePad ind lvl ++ (']' :: rest))) = _
            rw [List.nil_append, skipWs_append (wsOnly_closePad ind lvl),
              skipWs_not_ws (by decide)]
          rw [hsk]
          simp
      | cons y ys =>
          have hwy : (jwf y && jwfArr ys) = true := hwxs
          rw [Bool.and_eq_true] at hwy
          obtain ⟨st, hst, hstw⟩ := itemSep_shape ind lvl
          have hT : dumpArrTail ind lvl (y :: ys) ++ (closePad ind lvl ++ (']' :: rest)) =
              ',' :: (st ++ (dumpVal ind (lvl + 1) y ++ (dumpArrTail ind lvl ys ++
                (closePad ind lvl ++ (']' :: rest))))) := by
            rw [show dumpArrTail ind lvl (y :: ys) = itemSep ind lvl ++
              dumpVal ind (lvl + 1) y ++ dumpArrTail ind lvl ys from rfl, hst]
            simp [List.append_assoc]
          rw [hT]
          rw [skipWs_not_ws (by decide)]
          rw [ite_head_cons]
          rw [show parseElems f ((',' :: (st ++ (dumpVal ind (lvl + 1) y ++
              (dumpArrTail ind lvl ys ++ (closePad ind lvl ++ (']' :: rest)))))).tail) =
              some (y :: ys, rest) from
            rtElems y ys ind lvl f st rest hwy.1 hwy.2 (by
              show 1 + jfuel y + jfuelArr ys ≤ f
              have : jfuelArr (x :: y :: ys) = 1 + jfuel x + (1 + jfuel y + jfuelArr ys) := rfl
              omega) hstw hr]
          rfl
termination_by x xs ind lvl fuel pad rest => sizeOf x + sizeOf xs
decreasing_by all_goals (simp_wf; first | exact list_sizeOf_pos _ | omega)

/-- Scanning one dumped object item plus the remaining items, closing
padding and brace yields the entry list. -/
theorem rtFields : ∀ (k : String) (v : JValue) (fs : List (String × JValue))
    (ind : Option Nat) (lvl fuel : Nat) (pad rest : List Char),
    jwf v = true → jwfObj fs = true → jfuelObj ((k, v) :: fs) ≤ fuel → wsOnly pad →
    nonDigitHead rest →
    parseFields fuel (pad ++ (dumpStr k ++ (':' :: ' ' :: (dumpVal ind (lvl + 1) v ++
      (dumpObjTail ind lvl fs ++ (closePad ind lvl ++ ('\x7d' :: rest))))))) =
      some ((k, v) :: fs, rest)
  | k, v, fs, ind, lvl, fuel, pad, rest => fun hwv hwfs hfu hpad hr => by
      have hf1 : 1 + jfuel v + jfuelObj fs ≤ fuel := hfu
      obtain ⟨f, rfl⟩ : ∃ f, fuel = f + 1 := ⟨fuel - 1, by omega⟩
      rw [parseFields_succ]
      have hsk : skipWs (pad ++ (dumpStr k ++ (':' :: ' ' :: (dumpVal ind (lvl + 1) v ++
          (dumpObjTail ind lvl fs ++ (closePad ind lvl ++ ('\x7d' :: rest))))))) =
          '"' :: (escChars k.data ++ ('"' :: (':' :: ' ' :: (dumpVal ind (lvl + 1) v ++
            (dumpObjTail ind lvl fs ++ (closePad ind lvl ++ ('\x7d' :: rest))))))) := by
        rw [skipWs_append hpad]
        rw [show dumpStr k ++ (':' :: ' ' :: (dumpVal ind (lvl + 1) v ++
          (dumpObjTail ind lvl fs ++ (closePad ind lvl ++ ('\x7d' :: rest))))) =
          '"' :: (escChars k.data ++ ('"' :: (':' :: ' ' :: (dumpVal ind (lvl + 1) v ++
            (dumpObjTail ind lvl fs ++ (closePad ind lvl ++ ('\x7d' :: rest))))))) from by
          simp [dumpStr, List.append_assoc]]
        rw [skipWs_not_ws (by decide)]
      rw [hsk]
      rw [ite_head_cons]
      rw [show ('"' :: (escChars k.data ++ ('"' :: (':' :: ' ' ::
          (dumpVal ind (lvl + 1) v ++ (dumpObjTail ind lvl fs ++
            (closePad ind lvl ++ ('\x7d' :: rest)))))))).tail =
          escChars k.data ++ ('"' :: (':' :: ' ' :: (dumpVal ind (lvl + 1) v ++
            (dumpObjTail ind lvl fs ++ (closePad ind lvl ++ ('\x7d' :: rest)))))) from rfl]
      rw [parseStringAux_escChars k.data _ _ (by
        have := escChars_length_ge k.data
        simp only [List.length_append, List.length_cons]
        omega)]
      rw [option_some_bind]
      rw [skipWs_not_ws (by decide)]
      rw [ite_head_cons]
      rw [show parseValue f ((':' :: ' ' :: (dumpVal ind (lvl + 1) v ++
          (dumpObjTail ind lvl fs ++ (closePad ind lvl ++ ('\x7d' :: rest))))).tail) =
          some (v, dumpObjTail ind lvl fs ++ (closePad ind lvl ++ ('\x7d' :: rest))) from by
        show parseValue f (' ' :: (dumpVal ind (lvl + 1) v ++
          (dumpObjTail ind lvl fs ++ (closePad ind lvl ++ ('\x7d' :: rest))))) = _
        rw [show (' ' :: (dumpVal ind (lvl + 1) v ++ (dumpObjTail ind lvl fs ++
          (closePad ind lvl ++ ('\x7d' :: rest)))) : List Char) =
          [' '] ++ (dumpVal ind (lvl + 1) v ++ (dumpObjTail ind lvl fs ++
            (closePad ind lvl ++ ('\x7d' :: rest)))) from rfl]
        rw [parseValue_ws wsOnly_space]
        exact rtVal v ind (lvl + 1) f _ hwv (by omega)
          (nonDigitHead_objTail ind lvl fs (nonDigitHead_closePad ind lvl (by decide) rest))]
      rw [option_some_bind]
      cases fs with
      | nil =>
          have hsk2 : skipWs (dumpObjTail ind lvl ([] : List (String × JValue)) ++
              (closePad ind lvl ++ ('\x7d' :: rest))) = '\x7d' :: rest := by
            show skipWs ([] ++ (closePad ind lvl ++ ('\x7d' :: rest))) = _
            rw [List.nil_append, skipWs_append (wsOnly_closePad ind lvl),
              skipWs_not_ws (by decide)]
          rw [hsk2]
          simp
      | cons p fs' =>
          obtain ⟨k2, v2⟩ := p
          have hwp : ((!(fs'.any (fun q => q.1 == k2)) && jwf v2) && jwfObj fs') = true := hwfs
          rw [Bool.and_eq_true, Bool.and_eq_true] at hwp
          obtain ⟨st, hst, hstw⟩ := itemSep_shape ind lvl
          have hT : dumpObjTail ind lvl ((k2, v2) :: fs') ++
              (closePad ind lvl ++ ('\x7d' :: rest)) =
              ',' :: (st ++ (dumpStr k2 ++ (':' :: ' ' :: (dumpVal ind (lvl + 1) v2 ++
                (dumpObjTail ind lvl fs' ++ (closePad ind lvl ++ ('\x7d' :: rest))))))) := by
            rw [show dumpObjTail ind lvl ((k2, v2) :: fs') = itemSep ind lvl ++
              dumpStr k2 ++ ':' :: ' ' :: dumpVal ind (lvl + 1) v2 ++
                dumpObjTail ind lvl fs' from rfl, hst]
            simp [List.append_assoc]
          rw [hT]
          rw [skipWs_not_ws (by decide)]
          rw [ite_head_cons]
          rw [show parseFields f ((',' :: (st ++ (dumpStr k2 ++ (':' :: ' ' ::
              (dumpVal ind (lvl + 1) v2 ++ (dumpObjTail ind lvl fs' ++
                (closePad ind lvl ++ ('\x7d' :: rest)))))))).tail) =
              some ((k2, v2) :: fs', rest) from
            rtFields k2 v2 fs' ind lvl f st rest hwp.1.2 hwp.2 (by
              show 1 + jfuel v2 + jfuelObj fs' ≤ f
              have : jfuelObj ((k, v) :: (k2, v2) :: fs') =
                1 + jfuel v + (1 + jfuel v2 + jfuelObj fs') := rfl
              omega) hstw hr]
          rfl
termination_by k v fs ind lvl fuel pad rest => sizeOf v + sizeOf fs
decreasing_by all_goals (simp_wf; first | exact list_sizeOf_pos _ | omega)

end

/-- The item separator is never empty. -/
theorem itemSep_length_pos (ind : Option Nat) (lvl : Nat) :
    0 < (itemSep ind lvl).length := by
  cases ind <;> simp [itemSep, nlIndent]

/-- Decimal digit strings are never empty. -/
theorem natDigits_length_pos (n : Nat) : 0 < (natDigits n).length := by
  show 0 < (natDigitsAux (n + 1) n).length
  simp only [natDigitsAux]
  by_cases h : n < 10
  · rw [if_pos h]; simp
  · rw [if_neg h]; simp

/-- Integer renderings are never empty. -/
theorem intDigits_length_pos (n : Int) : 0 < (intDigits n).length := by
  rw [intDigits]
  by_cases h : n < 0
  · rw [if_pos h]; simp
  · rw [if_neg h]; exact natDigits_length_pos _

mutual

/-- The fuel bound of a value is at most twice its dump length. -/
theorem lenVal : ∀ (v : JValue) (ind : Option Nat) (lvl : Nat),
    jfuel v ≤ 2 * (dumpVal ind lvl v).length
  | .null, ind, lvl => by simp only [jfuel, dumpVal]; decide
  | .bool b, ind, lvl => by cases b <;> simp [jfuel, dumpVal]
  | .int n, ind, lvl => by
      have h := intDigits_length_pos n
      simp only [jfuel, dumpVal]
      omega
  | .str st, ind, lvl => by
      simp only [jfuel, dumpVal, dumpStr, List.length_cons, List.length_append]
      omega
  | .arr [], ind, lvl => by simp only [jfuel, jfuelArr, dumpVal]; decide
  | .arr (x :: xs), ind, lvl => by
      have h1 := lenVal x ind (lvl + 1)
      have h2 := lenArr xs ind lvl
      simp only [jfuel, jfuelArr, dumpVal, List.length_cons, List.length_append,
        List.length_singleton] at *
      omega
  | .obj [], ind, lvl => by simp only [jfuel, jfuelObj, dumpVal]; decide
  | .obj ((k, v) :: fs), ind, lvl => by
      have h1 := lenVal v ind (lvl + 1)
      have h2 := lenObj fs ind lvl
      simp only [jfuel, jfuelObj, dumpVal, List.length_cons, List.length_append,
        List.length_singleton] at *
      omega
termination_by v ind lvl => sizeOf v
decreasing_by all_goals simp_wf <;> first | exact list_sizeOf_pos _ | omega

/-- The array-tail fuel bound against the dumped tail length. -/
theorem lenArr : ∀ (xs : List JValue) (ind : Option Nat) (lvl : Nat),
    jfuelArr xs ≤ 2 * (dumpArrTail ind lvl xs).length + 2
  | [], ind, lvl => by simp only [jfuelArr, dumpArrTail]; decide
  | x :: xs, ind, lvl => by
      have h1 := lenVal x ind (lvl + 1)
      have h2 := lenArr xs ind lvl
      have h3 := itemSep_length_pos ind lvl
      simp only [jfuelArr, dumpArrTail, List.length_append] at h1 h2 ⊢
      omega
termination_by xs ind lvl => sizeOf xs
decreasing_by all_goals simp_wf <;> first | exact list_sizeOf_pos _ | omega

/-- The object-tail fuel bound against the dumped tail length. -/
theorem lenObj : ∀ (fs : List (String × JValue)) (ind : Option Nat) (lvl : Nat),
    jfuelObj fs ≤ 2 * (dumpObjTail ind lvl fs).length + 2
  | [], ind, lvl => by simp only [jfuelObj, dumpObjTail]; decide
  | (k, v) :: fs, ind, lvl => by
      have h1 := lenVal v ind (lvl + 1)
      have h2 := lenObj fs ind lvl
      simp only [jfuelObj, dumpObjTail, List.length_append, List.length_cons] at *
      omega
termination_by fs ind lvl => sizeOf fs
decreasing_by all_goals simp_wf <;> first | exact list_sizeOf_pos _ | omega

end

/-- Sanity: loading a concrete document with nesting, escapes and a
negative number. -/
theorem pyJsonLoads_sample : pyJsonLoads "\x7b\"a\": [1, -2, null], \"b\": \"x\\ny\"\x7d" =
    some (.obj [("a", .arr [.int 1, .int (-2), .null]), ("b", .str "x\ny")]) := by decide

/-- Sanity: the indent-2 dump of a concrete dictionary. -/
theorem pyJsonDumps_sample : pyJsonDumps (some 2) (.obj [("a", .arr [.int 1])]) =
    "\x7b\n  \"a\": [\n    1\n  ]\n\x7d" := by decide

/-- C7: for every well-formed structured lineage dictionary (pairwise
distinct keys at every nesting level, the shape of every successfully
parsed response), serializing it with `json.dumps(..., indent=2)` — exactly
the pretty-printed JSON payload `render_download_section` offers — and
re-parsing that document with `json.loads` reproduces the identical
structure: in particular the same node set and the same edges in the same
order. -/
theorem C7_export_roundtrip (d : JValue) (r : String) (h : jwf d = true) :
    pyJsonLoads (pyJsonDumps (some 2) d) = some d ∧
    (∀ md js, render_download_section d r = .buttons md js →
      pyJsonLoads js = some d ∧ md = r) := by
  have hlen := lenVal d (some 2) 0
  have hrt : pyJsonLoads (pyJsonDumps (some 2) d) = some d := by
    have hps := rtVal d (some 2) 0 (2 * (dumpVal (some 2) 0 d).length + 2) [] h
      (by omega) (by intro c hc; simp at hc)
    rw [List.append_nil] at hps
    have hdata : (pyJsonDumps (some 2) d).data = dumpVal (some 2) 0 d := rfl
    unfold pyJsonLoads
    rw [hdata, hps]
    simp [skipWs]
  refine ⟨hrt, ?_⟩
  intro md js hdr
  unfold render_download_section at hdr
  by_cases hc : (jTruthy d && decide (r ≠ "")) = true
  · rw [if_pos hc] at hdr
    injection hdr with h1 h2
    subst h1
    subst h2
    exact ⟨hrt, rfl⟩
  · rw [if_neg hc] at hdr
    exact DownloadRender.noConfusion hdr

/-- C7 witness: the spec example response is well-formed and its indent-2
export re-parses to itself. -/
theorem C7_export_roundtrip_witness :
    jwf exampleLineageResponse = true ∧
    pyJsonLoads (pyJsonDumps (some 2) exampleLineageResponse) =
      some exampleLineageResponse :=
  ⟨by decide, (C7_export_roundtrip exampleLineageResponse "## Data Flow Summary"
    (by decide)).1⟩
